/-
Verification of the publisher reconciliation core (bin/publishctl.py) against
its natural-language specification.

The Python program is shallowly embedded as pure Lean functions.  Effectful
code is modelled by explicit state passing: every operation takes a filesystem
value and returns a triple (result, filesystem, event trace).  External
collaborators (command executor, template renderer, HTTP prober) are
parameters of the model, so theorems quantify over their behaviour.
-/
import Mathlib

namespace Publisher

/-! ## Filesystem model

A filesystem is a finite map from paths to (content, mode) pairs, represented
as an association list, plus a set of directories.  The association list is
kept duplicate-free at each key by filtering on update. -/

structure FS where
  files : List (String × String × Nat) := []
  dirs : List String := []
deriving DecidableEq, Repr

def FS.lookupFile (fs : FS) (p : String) : Option (String × Nat) :=
  match fs.files.find? (fun e => e.1 == p) with
  | some e => some e.2
  | none => none

def FS.setFile (fs : FS) (p c : String) (md : Nat) : FS :=
  { fs with files := (p, c, md) :: fs.files.filter (fun e => e.1 != p) }

def FS.removeFile (fs : FS) (p : String) : FS :=
  { fs with files := fs.files.filter (fun e => e.1 != p) }

def FS.hasDir (fs : FS) (d : String) : Bool :=
  fs.dirs.contains d

def FS.addDir (fs : FS) (d : String) : FS :=
  if fs.dirs.contains d then fs else { fs with dirs := fs.dirs ++ [d] }

/-! ## Path helpers

The source uses pathlib.  The parent of a path is everything before the last
slash; `path.with_suffix(path.suffix + ".tmp")` always appends ".tmp" to the
name, because the replaced suffix is re-included in the new one. -/

def parentDir (p : String) : String :=
  String.mk (((p.data.reverse.dropWhile (fun c => c != '/')).drop 1).reverse)

def tmpPath (p : String) : String := p ++ ".tmp"

/-- Python fqdn.split(".", 1)[-1]: the part after the first dot, or the whole
string when there is no dot. -/
def afterFirstDot (fq : String) : String :=
  match fq.data.dropWhile (fun c => c != '.') with
  | [] => fq
  | _ :: rest => String.mk rest

/-! ## The atomic file writer (write_file in the source)

write_file is modelled as a sequence of four micro steps so that an
interruption can be modelled as executing only a prefix of the steps:
make the parent directory, write the temporary file, set its permissions,
and rename the temporary file over the target. -/

inductive WStep where
  | mkdirParents
  | writeTmp
  | chmodTmp
  | renameOverTarget
deriving DecidableEq, Repr

/-- Mode bits a freshly created file receives before the explicit chmod
(stands for the process default creation mode). -/
def defaultCreateMode : Nat := 0o644

def stepW (path content : String) (md : Nat) (fs : FS) : WStep → FS
  | .mkdirParents => fs.addDir (parentDir path)
  | .writeTmp => fs.setFile (tmpPath path) content defaultCreateMode
  | .chmodTmp =>
    match fs.lookupFile (tmpPath path) with
    | some e => fs.setFile (tmpPath path) e.1 md
    | none => fs
  | .renameOverTarget =>
    match fs.lookupFile (tmpPath path) with
    | some e => (fs.removeFile (tmpPath path)).setFile path e.1 e.2
    | none => fs

def wsteps : List WStep :=
  [WStep.mkdirParents, WStep.writeTmp, WStep.chmodTmp, WStep.renameOverTarget]

def write_file (path content : String) (md : Nat) (fs : FS) : FS :=
  wsteps.foldl (stepW path content md) fs

/-! ## Manifest model

Mirrors the YAML dictionaries the source indexes into.  Every key the source
may look up is an Option field; a missing key raised as KeyError in Python is
modelled as an error value. -/

structure Entrypoint where
  module : Option String := none
  extra_args : Option String := none
  venv : Option String := none
  cmd : Option String := none
deriving DecidableEq, Repr

structure Backend where
  host : Option String := none
  port : Option Int := none
  working_dir : Option String := none
  entrypoint : Option Entrypoint := none
deriving DecidableEq, Repr

structure ServiceRec where
  template : Option String := none
  user : Option String := none
  group : Option String := none
deriving DecidableEq, Repr

structure ApacheRec where
  template : Option String := none
  logPrefix : Option String := none
deriving DecidableEq, Repr

structure FlutterRec where
  document_root : Option String := none
  artifact_dir : Option String := none
deriving DecidableEq, Repr

structure PublishRec where
  http_target : Option String := none
deriving DecidableEq, Repr

structure DockerRec where
  compose_path : Option String := none
  project : Option String := none
  publish : Option PublishRec := none
deriving DecidableEq, Repr

structure ScmRec where
  repo : Option String := none
  branch : Option String := none
deriving DecidableEq, Repr

structure DeployRec where
  preinstall : List String := []
deriving DecidableEq, Repr

structure HealthRec where
  url : Option String := none
  timeout : Option Int := none
deriving DecidableEq, Repr

structure Manifest where
  name : Option String := none
  kind : Option String := none
  fqdn : Option String := none
  ssl : Bool := false
  apache : Option ApacheRec := none
  backend : Option Backend := none
  service : Option ServiceRec := none
  flutter : Option FlutterRec := none
  docker : Option DockerRec := none
  scm : Option ScmRec := none
  deploy : Option DeployRec := none
  healthcheck : Option HealthRec := none
deriving DecidableEq, Repr

/-! ## Errors, events, external collaborators -/

inductive Err where
  | keyError (k : String)
  | calledProcess (cmd : List String)
  | nameError (n : String)
  | valueError
  | exitCode (n : Nat)
deriving DecidableEq, Repr

inductive Ev where
  | run (cmd : List String)
  | write (path content : String) (md : Nat)
  | mkdir (path : String)
  | echo (msg : String)
  | httpGet (url : String)
deriving DecidableEq, Repr

/-- The command executor: whether an external command exits successfully. -/
abbrev Exec := List String → Bool

/-- The HTTP prober: status code of a GET, or none when the request raises. -/
abbrev Http := String → Option Nat

/-- Context for the apache virtual host template. -/
structure VhostCtx where
  fqdn : String
  backend_host : String
  backend_port : Int
  docroot : String
  logPrefix : String
deriving DecidableEq, Repr

/-- Context for the systemd unit template. -/
structure UnitCtx where
  user : String
  group : String
  workdir : String
  uvicorn_module : String
  uvicorn_args : String
  venv : String
  cmd : String
  port : Int
deriving DecidableEq, Repr

/-- The external template renderer (pure: template name and context to text). -/
structure Rnd where
  apacheTpl : String → VhostCtx → String
  systemdTpl : String → UnitCtx → String
  composeTpl : Manifest → String

/-! ## Effect plumbing

An operation returns (result, filesystem, events it emitted).  Sequencing
concatenates event lists and stops at the first error. -/

instance {ε α : Type} [DecidableEq ε] [DecidableEq α] : DecidableEq (Except ε α) :=
  fun a b =>
    match a, b with
    | .ok x, .ok y =>
      match decEq x y with
      | isTrue h => isTrue (by rw [h])
      | isFalse h => isFalse (fun hh => h (by injection hh))
    | .error x, .error y =>
      match decEq x y with
      | isTrue h => isTrue (by rw [h])
      | isFalse h => isFalse (fun hh => h (by injection hh))
    | .ok _, .error _ => isFalse (fun hh => Except.noConfusion hh)
    | .error _, .ok _ => isFalse (fun hh => Except.noConfusion hh)

abbrev Out := Except Err Unit × FS × List Ev

def seqO (a : Out) (k : FS → Out) : Out :=
  match a with
  | (.ok _, fs, ev) =>
    match k fs with
    | (r, fs2, ev2) => (r, fs2, ev ++ ev2)
  | (.error e, fs, ev) => (.error e, fs, ev)

def fails (e : Err) (fs : FS) : Out := (.error e, fs, [])

def skip (fs : FS) : Out := (.ok (), fs, [])

/-- Python dict lookup d[k]: KeyError when the key is absent. -/
def getE (o : Option α) (k : String) : Except Err α :=
  match o with
  | some v => .ok v
  | none => .error (.keyError k)

/-- Filesystem effect a successful external command has on the parts of the
filesystem the program later reads: a git clone creates the .git marker in
the working directory. -/
def execEffect (cmd : List String) (fs : FS) : FS :=
  match cmd with
  | ["git", "clone", "--depth=1", "--branch", _, _, wd] => fs.addDir (wd ++ "/.git")
  | _ => fs

/-- Sh.run with check=True: the command is issued (event recorded either way);
a nonzero exit raises CalledProcessError. -/
def shRun (ex : Exec) (cmd : List String) (fs : FS) : Out :=
  if ex cmd then (.ok (), execEffect cmd fs, [Ev.run cmd])
  else (.error (.calledProcess cmd), fs, [Ev.run cmd])

/-- write_file as invoked from the appliers: parent mkdir plus the whole
write sequence, recorded as two events. -/
def writeOp (path content : String) (md : Nat) (fs : FS) : Out :=
  (.ok (), write_file path content md fs,
    [Ev.mkdir (parentDir path), Ev.write path content md])

/-- Path.mkdir(parents=True, exist_ok=True). -/
def mkdirOp (d : String) (fs : FS) : Out :=
  (.ok (), fs.addDir d, [Ev.mkdir d])

/-! ## Pure value computations lifted from the source -/

/-- Python str.split(sep) over the character list: split at every separator
occurrence, keeping empty parts. -/
def splitChars (sep : Char) : List Char → List (List Char)
  | [] => [[]]
  | c :: rest =>
    match splitChars sep rest with
    | [] => [[]]
    | grp :: more =>
      if c = sep then [] :: grp :: more else (c :: grp) :: more

/-- Python hp.split(":") unpacked into exactly two names; ValueError
otherwise. -/
def split2 (s : String) (sep : Char) : Except Err (String × String) :=
  match (splitChars sep s.data).map String.mk with
  | [a, b] => .ok (a, b)
  | _ => .error .valueError

def digitVal (c : Char) : Option Nat :=
  if c.isDigit then some (c.toNat - 48) else none

def digitsToNat (l : List Char) : Option Nat :=
  l.foldl
    (fun acc c =>
      match acc, digitVal c with
      | some n, some d => some (n * 10 + d)
      | _, _ => none)
    (some 0)

/-- Python int(s) on a plain decimal literal with an optional sign;
ValueError otherwise. -/
def pyInt (s : String) : Except Err Int :=
  match s.data with
  | [] => .error .valueError
  | '-' :: rest =>
    if rest.isEmpty then .error .valueError
    else
      match digitsToNat rest with
      | some n => .ok (-(n : Int))
      | none => .error .valueError
  | '+' :: rest =>
    if rest.isEmpty then .error .valueError
    else
      match digitsToNat rest with
      | some n => .ok (n : Int)
      | none => .error .valueError
  | l =>
    match digitsToNat l with
    | some n => .ok (n : Int)
    | none => .error .valueError

def sitesAvailable : String := "/etc/apache2/sites-available"

/-- Path of the apache site configuration keyed by domain. -/
def sitePath (fq : String) : String := sitesAvailable ++ "/" ++ fq ++ ".conf"

/-- Context computation of apache_apply, with the same key-lookup order as the
source: apache, template, fqdn, name (the default argument of the log_prefix
lookup is evaluated eagerly). -/
def vhostCtx (m : Manifest) : Except Err (String × VhostCtx) := do
  let ap ← getE m.apache "apache"
  let tpl ← getE ap.template "template"
  let fq ← getE m.fqdn "fqdn"
  let nm ← getE m.name "name"
  .ok (tpl,
    { fqdn := fq,
      backend_host := (m.backend.getD {}).host.getD "127.0.0.1",
      backend_port := (m.backend.getD {}).port.getD 8000,
      docroot := (m.flutter.getD {}).document_root.getD "/var/www/html",
      logPrefix := ap.logPrefix.getD nm })

def apache_apply (ex : Exec) (r : Rnd) (m : Manifest) (fs : FS) : Out :=
  match vhostCtx m with
  | .error e => fails e fs
  | .ok tc =>
    let vhost := r.apacheTpl ("apache/" ++ tc.1) tc.2
    seqO (writeOp (sitePath tc.2.fqdn) vhost 0o644 fs) (fun fs =>
    seqO (shRun ex ["sudo", "a2ensite", tc.2.fqdn ++ ".conf"] fs) (fun fs =>
    shRun ex ["sudo", "service", "apache2", "reload"] fs))

/-- Context computation of systemd_apply, with the key-lookup order of the
source: service.template, name, service.user, service.group,
backend.working_dir; the entrypoint fields fall back to empty strings. -/
def unitCtx (m : Manifest) : Except Err (String × String × UnitCtx) := do
  let svc ← getE m.service "service"
  let tpl ← getE svc.template "template"
  let nm ← getE m.name "name"
  let usr ← getE svc.user "user"
  let grp ← getE svc.group "group"
  let be ← getE m.backend "backend"
  let wd ← getE be.working_dir "working_dir"
  let ep := (m.backend.getD {}).entrypoint.getD {}
  .ok (tpl, nm ++ ".service",
    { user := usr, group := grp, workdir := wd,
      uvicorn_module := ep.module.getD "",
      uvicorn_args := ep.extra_args.getD "",
      venv := ep.venv.getD "",
      cmd := ep.cmd.getD "",
      port := (m.backend.getD {}).port.getD 8000 })

def systemd_apply (ex : Exec) (r : Rnd) (m : Manifest) (fs : FS) : Out :=
  match unitCtx m with
  | .error e => fails e fs
  | .ok tc =>
    let unit := r.systemdTpl ("systemd/" ++ tc.1) tc.2.2
    seqO (writeOp ("/etc/systemd/system/" ++ tc.2.1) unit 0o644 fs) (fun fs =>
    seqO (shRun ex ["sudo", "systemctl", "daemon-reload"] fs) (fun fs =>
    shRun ex ["sudo", "systemctl", "enable", "--now", tc.2.1] fs))

def dockerUpCmd (cp proj : String) : List String :=
  ["sudo", "docker", "compose", "-f", cp, "-p", proj, "up", "-d"]

def docker_apply (ex : Exec) (r : Rnd) (m : Manifest) (fs : FS) : Out :=
  let compose := r.composeTpl m
  match getE m.docker "docker" with
  | .error e => fails e fs
  | .ok dk =>
    match getE dk.compose_path "compose_path" with
    | .error e => fails e fs
    | .ok cp =>
      seqO (writeOp cp compose 0o644 fs) (fun fs =>
        match getE dk.project "project" with
        | .error e => fails e fs
        | .ok proj => shRun ex (dockerUpCmd cp proj) fs)

/-- Working directory selection of deploy_code:
backend.working_dir when a backend record exists, otherwise /srv/name. -/
def wdOf (m : Manifest) : Except Err String :=
  match m.backend with
  | some be => getE be.working_dir "working_dir"
  | none =>
    match m.name with
    | some nm => .ok ("/srv/" ++ nm)
    | none => .error (.keyError "name")

def cloneCmd (branch repo wd : String) : List String :=
  ["git", "clone", "--depth=1", "--branch", branch, repo, wd]

/-- The git stage of deploy_code, faithful to the dangling else in the
source: with an scm record, clone only when the .git marker is absent
(an existing checkout gets no fetch and no reset); without an scm record the
else branch builds a fetch command from the name branch, which was only ever
bound inside the scm branch, so Python raises NameError before issuing
anything. -/
def gitStage (ex : Exec) (m : Manifest) (wd : String) (fs : FS) : Out :=
  match m.scm with
  | some scm =>
    match getE scm.repo "repo" with
    | .error e => fails e fs
    | .ok repo =>
      if fs.hasDir (wd ++ "/.git") then skip fs
      else shRun ex (cloneCmd (scm.branch.getD "main") repo wd) fs
  | none => fails (.nameError "branch") fs

def preinstallOf (m : Manifest) : List String :=
  (m.deploy.getD {}).preinstall

def runPreinstall (ex : Exec) (wd : String) : List String → FS → Out
  | [], fs => skip fs
  | c :: rest, fs =>
    seqO (shRun ex ["bash", "-lc", "cd " ++ wd ++ " && " ++ c] fs)
      (runPreinstall ex wd rest)

def deploy_code (ex : Exec) (m : Manifest) (fs : FS) : Out :=
  match wdOf m with
  | .error e => fails e fs
  | .ok wd =>
    seqO (mkdirOp wd fs) (fun fs =>
    seqO (gitStage ex m wd fs) (fun fs =>
    runPreinstall ex wd (preinstallOf m) fs))

/-- Resolution of the published endpoint of a container stack:
docker.publish.http_target split at the colon, the port parsed as int. -/
def resolveEndpoint (m : Manifest) : Except Err (String × Int) := do
  let dk ← getE m.docker "docker"
  let pub ← getE dk.publish "publish"
  let hp ← getE pub.http_target "http_target"
  let parts ← split2 hp ':'
  let prt ← pyInt parts.2
  .ok (parts.1, prt)

/-- m.setdefault("backend", \x7b\x7d) followed by assigning host and port. -/
def withBackendHostPort (m : Manifest) (h : String) (p : Int) : Manifest :=
  { m with backend := some { m.backend.getD {} with host := some h, port := some p } }

def certbotCmd (fq : String) : List String :=
  ["sudo", "certbot", "--apache", "-n", "--agree-tos",
   "-m", "admin@" ++ afterFirstDot fq, "-d", fq, "--redirect"]

def ensure_ssl (ex : Exec) (fq : String) (fs : FS) : Out :=
  shRun ex (certbotCmd fq) fs

/-- The kind dispatch of apply (lines 104 to 126 of the source). -/
def dispatchKind (ex : Exec) (r : Rnd) (m : Manifest) (kind : String) (fs : FS) : Out :=
  if kind = "fastapi" ∨ kind = "streamlit" then
    seqO (deploy_code ex m fs) (fun fs =>
    seqO (systemd_apply ex r m fs) (fun fs =>
    apache_apply ex r m fs))
  else if kind = "flutter" then
    seqO (apache_apply ex r m fs) (fun fs =>
      match getE m.flutter "flutter" with
      | .error e => fails e fs
      | .ok fl =>
        match getE fl.document_root "document_root" with
        | .error e => fails e fs
        | .ok dr => mkdirOp dr fs)
  else if kind = "docker" then
    seqO (deploy_code ex m fs) (fun fs =>
    seqO (docker_apply ex r m fs) (fun fs =>
      match m.apache with
      | none => skip fs
      | some _ =>
        match resolveEndpoint m with
        | .error e => fails e fs
        | .ok hp => apache_apply ex r (withBackendHostPort m hp.1 hp.2) fs))
  else
    (.error (.exitCode 2), fs, [Ev.echo ("Unsupported kind: " ++ kind)])

/-- The TLS step of apply: certbot failure is not caught. -/
def sslStep (ex : Exec) (m : Manifest) (fs : FS) : Out :=
  if m.ssl then
    match getE m.fqdn "fqdn" with
    | .error e => fails e fs
    | .ok fq => ensure_ssl ex fq fs
  else skip fs

/-- The health probe of apply: a failed GET is caught and echoed. -/
def healthStep (http : Http) (m : Manifest) (fs : FS) : Out :=
  match (m.healthcheck.getD {}).url with
  | none => skip fs
  | some u =>
    if u = "" then skip fs
    else
      match http u with
      | some code => (.ok (), fs, [Ev.httpGet u, Ev.echo ("Health: " ++ toString code)])
      | none => (.ok (), fs, [Ev.httpGet u, Ev.echo "Healthcheck failed"])

/-- The apply command: kind dispatch, then TLS, then the health probe. -/
def apply (ex : Exec) (http : Http) (r : Rnd) (m : Manifest) (fs : FS) : Out :=
  match getE m.kind "kind" with
  | .error e => fails e fs
  | .ok kind =>
    seqO (dispatchKind ex r m kind fs) (fun fs =>
    seqO (sslStep ex m fs) (fun fs =>
    healthStep http m fs))

/-! ## Observable state of the process manager and the container runtime

The activation commands the program issues are idempotent by the contract of
the external tools: enabling an enabled site or unit is a no-op, and compose
up reconciles a project to its descriptor.  This is encoded as a fold of the
event trace into an observable-state value. -/

structure Sys where
  enabledSites : List String := []
  activeUnits : List String := []
  dockerProjects : List (String × String) := []
deriving DecidableEq, Repr

def insertIfAbsent (x : String) (l : List String) : List String :=
  if l.contains x then l else l ++ [x]

def setAssoc (k v : String) (l : List (String × String)) : List (String × String) :=
  (k, v) :: l.filter (fun e => e.1 != k)

def stepSys (y : Sys) (e : Ev) : Sys :=
  match e with
  | .run cmd =>
    match cmd with
    | ["sudo", "a2ensite", site] =>
      { y with enabledSites := insertIfAbsent site y.enabledSites }
    | ["sudo", "systemctl", "enable", "--now", svc] =>
      { y with activeUnits := insertIfAbsent svc y.activeUnits }
    | ["sudo", "docker", "compose", "-f", cp, "-p", proj, "up", "-d"] =>
      { y with dockerProjects := setAssoc proj cp y.dockerProjects }
    | _ => y
  | _ => y

def sysOf (evs : List Ev) : Sys := evs.foldl stepSys {}

/-! ## Concrete collaborators used by witnesses and counterexamples -/

/-- A renderer that records its template name and context textually. -/
def rndX : Rnd where
  apacheTpl := fun t c =>
    "A|" ++ t ++ "|" ++ c.fqdn ++ "|" ++ c.backend_host ++ "|" ++
      toString c.backend_port ++ "|" ++ c.docroot ++ "|" ++ c.logPrefix
  systemdTpl := fun t c =>
    "S|" ++ t ++ "|" ++ c.user ++ "|" ++ c.group ++ "|" ++ c.workdir ++ "|" ++ toString c.port
  composeTpl := fun m => "C|" ++ m.name.getD ""

/-- An executor for which every external command succeeds. -/
def allOk : Exec := fun _ => true

/-- A prober whose GET always raises. -/
def httpNone : Http := fun _ => none

/-- The bash commands the preinstall steps of a deploy issue. -/
def bashEvs (wd : String) (l : List String) : List Ev :=
  l.map (fun c => Ev.run ["bash", "-lc", "cd " ++ wd ++ " && " ++ c])

/-- C1 counterexample manifest: a static-site manifest requesting TLS. -/
def mC1 : Manifest :=
  { name := some "web", kind := some "flutter", fqdn := some "ex.org", ssl := true,
    apache := some { template := some "flutter.conf.j2" },
    flutter := some { document_root := some "/var/www/web" } }

/-- An executor on which exactly the certbot command fails. -/
def exC1 : Exec := fun c => c != certbotCmd "ex.org"

/-! ## Trace observers and manifests used by the claims -/

/-- The events a successful Reverse Proxy Applier run emits. -/
def apacheEvsOf (r : Rnd) (tpl : String) (ctx : VhostCtx) : List Ev :=
  [Ev.mkdir (parentDir (sitePath ctx.fqdn)),
   Ev.write (sitePath ctx.fqdn) (r.apacheTpl ("apache/" ++ tpl) ctx) 0o644,
   Ev.run ["sudo", "a2ensite", ctx.fqdn ++ ".conf"],
   Ev.run ["sudo", "service", "apache2", "reload"]]

/-- The events a successful Native Service Applier run emits. -/
def systemdEvsOf (r : Rnd) (tpl svc : String) (ctx : UnitCtx) : List Ev :=
  [Ev.mkdir (parentDir ("/etc/systemd/system/" ++ svc)),
   Ev.write ("/etc/systemd/system/" ++ svc)
     (r.systemdTpl ("systemd/" ++ tpl) ctx) 0o644,
   Ev.run ["sudo", "systemctl", "daemon-reload"],
   Ev.run ["sudo", "systemctl", "enable", "--now", svc]]

/-- The events a Container Stack Applier run emits once the compose path and
project lookups succeed (the up command runs last, whether or not it fails). -/
def dockerEvsOf (r : Rnd) (m : Manifest) (cp proj : String) : List Ev :=
  [Ev.mkdir (parentDir cp), Ev.write cp (r.composeTpl m) 0o644,
   Ev.run (dockerUpCmd cp proj)]

/-- The events of the health probe step. -/
def healthEvs (http : Http) (m : Manifest) : List Ev :=
  match (m.healthcheck.getD {}).url with
  | none => []
  | some u =>
    if u = "" then []
    else
      match http u with
      | some code => [Ev.httpGet u, Ev.echo ("Health: " ++ toString code)]
      | none => [Ev.httpGet u, Ev.echo "Healthcheck failed"]

/-- Is this event an invocation of git? -/
def isGitEv : Ev → Bool
  | .run ("git" :: _) => true
  | _ => false

def hasGitCmd (evs : List Ev) : Bool := evs.any isGitEv

def isWrite : Ev → Bool
  | .write _ _ _ => true
  | _ => false

/-- The event is neither the given run command nor a write to the given path. -/
def cleanFor (u : List String) (p : String) : Ev → Bool
  | .run c => c != u
  | .write q _ _ => q != p
  | _ => true

/-- Scanning left to right: no write to path p occurs strictly before the
first run of command u. -/
def upBefore (u : List String) (p : String) : List Ev → Bool
  | [] => true
  | Ev.run c :: rest => if c = u then true else upBefore u p rest
  | Ev.write q _ _ :: rest => if q = p then false else upBefore u p rest
  | _ :: rest => upBefore u p rest

/-- Index of the first occurrence of an event in a trace. -/
def firstIdx (e : Ev) : List Ev → Nat
  | [] => 0
  | x :: rest => if x = e then 0 else firstIdx e rest + 1

/-- C2 counterexample manifests: a static-site manifest WITH a source record
(the builder UI emits exactly this shape), and a native-service manifest
WITHOUT one. -/
def mC2a : Manifest :=
  { name := some "web2", kind := some "flutter", fqdn := some "ex2.org",
    apache := some { template := some "flutter.conf.j2" },
    flutter := some { document_root := some "/var/www/web2" },
    scm := some { repo := some "git@github.com:org/web2.git" } }

def mC2b : Manifest :=
  { name := some "api2", kind := some "fastapi", fqdn := some "a2.org",
    apache := some { template := some "fastapi.conf.j2" },
    backend := some { working_dir := some "/srv/api2" },
    service := some { template := some "fastapi.service.j2",
                      user := some "u", group := some "g" } }

/-- C4 counterexample manifest: native-service kind with a source record but
no service sub-record. -/
def mC4 : Manifest :=
  { name := some "api4", kind := some "fastapi", fqdn := some "a4.org",
    apache := some { template := some "fastapi.conf.j2" },
    backend := some { working_dir := some "/srv/api4" },
    scm := some { repo := some "git@github.com:org/api4.git" } }

/-- C5 counterexample manifest: a plain static-site manifest. -/
def mC5 : Manifest :=
  { name := some "web5", kind := some "flutter", fqdn := some "ex5.org",
    apache := some { template := some "flutter.conf.j2" },
    flutter := some { document_root := some "/var/www/web5" } }

/-- C6 witness manifest: a container stack with a reverse proxy. -/
def mC6 : Manifest :=
  { name := some "stack6", kind := some "docker", fqdn := some "d6.org",
    apache := some { template := some "docker.conf.j2" },
    docker := some { compose_path := some "/srv/stack6/docker-compose.yml",
                     project := some "stack6",
                     publish := some { http_target := some "127.0.0.1:9000" } },
    scm := some { repo := some "git@github.com:org/stack6.git" } }

/-- Observational equality of filesystems: the same file content at every
path and the same directories. -/
def FS.equiv (a b : FS) : Prop :=
  (∀ p, a.lookupFile p = b.lookupFile p) ∧ (∀ d, a.hasDir d = b.hasDir d)

/-- Filesystem result of the git stage of the Code Deployer when every
command succeeds: clone only when the checkout marker is absent. -/
def gitFS (fs : FS) (wd : String) : FS :=
  if (fs.addDir wd).hasDir (wd ++ "/.git") then fs.addDir wd
  else (fs.addDir wd).addDir (wd ++ "/.git")

/-- Events of the git stage of the Code Deployer when every command
succeeds. -/
def gitEvs (fs : FS) (wd : String) (scm : ScmRec) (repo : String) : List Ev :=
  if (fs.addDir wd).hasDir (wd ++ "/.git") then []
  else [Ev.run (cloneCmd (scm.branch.getD "main") repo wd)]

/-- Events of the TLS step when every command succeeds. -/
def sslEvs (m : Manifest) (fq : String) : List Ev :=
  if m.ssl then [Ev.run (certbotCmd fq)] else []

/-! ## Manifest validity

The requirements the code paths place on a manifest for a fully successful
apply: every dictionary lookup apply performs for the declared kind succeeds
and, for a proxied container stack, the published endpoint parses. -/

def validApacheBits (m : Manifest) : Bool :=
  match m.apache, m.fqdn, m.name with
  | some ap, some _, some _ => ap.template.isSome
  | _, _, _ => false

def validDeployBits (m : Manifest) : Bool :=
  (match m.scm with
   | some scm => scm.repo.isSome
   | none => false) &&
  (match m.backend with
   | some be => be.working_dir.isSome
   | none => m.name.isSome)

def validServiceBits (m : Manifest) : Bool :=
  (match m.service with
   | some svc => svc.template.isSome && svc.user.isSome && svc.group.isSome
   | none => false) &&
  (match m.backend with
   | some be => be.working_dir.isSome
   | none => false) &&
  m.name.isSome

def endpointOk (m : Manifest) : Bool :=
  match resolveEndpoint m with
  | .ok _ => true
  | .error _ => false

def dockerBits (m : Manifest) : Bool :=
  match m.docker with
  | some dk => dk.compose_path.isSome && dk.project.isSome
  | none => false

def validManifest (m : Manifest) : Bool :=
  (!m.ssl || m.fqdn.isSome) &&
  match m.kind with
  | some "fastapi" => validDeployBits m && validServiceBits m && validApacheBits m
  | some "streamlit" => validDeployBits m && validServiceBits m && validApacheBits m
  | some "flutter" =>
    validApacheBits m &&
    (match m.flutter with
     | some fl => fl.document_root.isSome
     | none => false)
  | some "docker" =>
    validDeployBits m && dockerBits m &&
    (match m.apache with
     | none => true
     | some _ => validApacheBits m && endpointOk m)
  | _ => false

/-! ## Basic list and filesystem lemmas -/

theorem filter_idem {α : Type} (p : α → Bool) (l : List α) :
    (l.filter p).filter p = l.filter p := by
  rw [List.filter_filter]
  exact List.filter_congr (fun a _ => by cases p a <;> rfl)

theorem filter_comm {α : Type} (p q : α → Bool) (l : List α) :
    (l.filter q).filter p = (l.filter p).filter q := by
  rw [List.filter_filter, List.filter_filter]
  exact List.filter_congr (fun a _ => Bool.and_comm _ _)

theorem find?_filter_ne {β : Type} (l : List (String × β)) (p q : String) (h : p ≠ q) :
    (l.filter (fun e => e.1 != q)).find? (fun e => e.1 == p) =
      l.find? (fun e => e.1 == p) := by
  induction l with
  | nil => rfl
  | cons a l ih =>
    by_cases ha : a.1 = q
    · have h1 : (a.1 != q) = false := by simp [ha]
      have hap : (a.1 == p) = false := by
        simp only [beq_eq_false_iff_ne, ne_eq, ha]
        exact fun hh => h hh.symm
      rw [List.filter_cons, h1, List.find?_cons, hap]
      simp only [Bool.false_eq_true, if_false]
      exact ih
    · have h1 : (a.1 != q) = true := by simp [ha]
      rw [List.filter_cons, h1, if_pos rfl, List.find?_cons, List.find?_cons]
      cases hap : (a.1 == p) with
      | true => rfl
      | false => exact ih

@[simp] theorem dirs_setFile (fs : FS) (p c : String) (md : Nat) :
    (fs.setFile p c md).dirs = fs.dirs := rfl

@[simp] theorem dirs_removeFile (fs : FS) (p : String) :
    (fs.removeFile p).dirs = fs.dirs := rfl

@[simp] theorem files_addDir (fs : FS) (d : String) :
    (fs.addDir d).files = fs.files := by
  unfold FS.addDir
  split <;> rfl

theorem lookupFile_addDir (fs : FS) (d p : String) :
    (fs.addDir d).lookupFile p = fs.lookupFile p := by
  unfold FS.lookupFile
  rw [files_addDir]

theorem lookupFile_setFile_same (fs : FS) (p c : String) (md : Nat) :
    (fs.setFile p c md).lookupFile p = some (c, md) := by
  unfold FS.lookupFile FS.setFile
  simp [List.find?_cons]

theorem lookupFile_setFile_ne (fs : FS) (p q c : String) (md : Nat) (h : p ≠ q) :
    (fs.setFile q c md).lookupFile p = fs.lookupFile p := by
  unfold FS.lookupFile FS.setFile
  simp only []
  rw [List.find?_cons]
  have hq : ((q, c, md).1 == p) = false := by
    simp
    exact fun hh => h hh.symm
  rw [hq]
  rw [find?_filter_ne fs.files p q h]

theorem lookupFile_removeFile_ne (fs : FS) (p q : String) (h : p ≠ q) :
    (fs.removeFile q).lookupFile p = fs.lookupFile p := by
  unfold FS.lookupFile FS.removeFile
  rw [find?_filter_ne fs.files p q h]

theorem setFile_setFile (fs : FS) (p c c2 : String) (md md2 : Nat) :
    (fs.setFile p c md).setFile p c2 md2 = fs.setFile p c2 md2 := by
  cases fs
  simp [FS.setFile, List.filter_cons, filter_idem]

theorem removeFile_setFile_same (fs : FS) (q c : String) (md : Nat) :
    (fs.setFile q c md).removeFile q = fs.removeFile q := by
  cases fs
  simp [FS.setFile, FS.removeFile, List.filter_cons, filter_idem]

@[simp] theorem hasDir_setFile (fs : FS) (p c : String) (md : Nat) (d : String) :
    (fs.setFile p c md).hasDir d = fs.hasDir d := rfl

@[simp] theorem hasDir_removeFile (fs : FS) (p d : String) :
    (fs.removeFile p).hasDir d = fs.hasDir d := rfl

theorem hasDir_addDir_self (fs : FS) (d : String) :
    (fs.addDir d).hasDir d = true := by
  unfold FS.addDir FS.hasDir
  split
  · assumption
  · simp [List.contains, List.elem_iff]

theorem hasDir_addDir_of (fs : FS) (d e : String) (h : fs.hasDir d = true) :
    (fs.addDir e).hasDir d = true := by
  unfold FS.hasDir at h
  unfold FS.addDir FS.hasDir
  split
  · exact h
  · simp only [List.contains, List.elem_iff] at h ⊢
    exact List.mem_append_left _ h

theorem addDir_of_hasDir (fs : FS) (d : String) (h : fs.hasDir d = true) :
    fs.addDir d = fs := by
  unfold FS.hasDir at h
  unfold FS.addDir
  rw [h]
  simp

theorem addDir_addDir_self (fs : FS) (d : String) :
    (fs.addDir d).addDir d = fs.addDir d :=
  addDir_of_hasDir _ _ (hasDir_addDir_self fs d)

/-! ## String path lemmas -/

theorem tmpPath_ne (p : String) : tmpPath p ≠ p := by
  intro h
  have hl := congrArg String.length h
  unfold tmpPath at hl
  rw [String.length_append] at hl
  have h4 : (".tmp" : String).length = 4 := by decide
  omega

theorem tmpPath_ne_symm (p : String) : p ≠ tmpPath p :=
  fun h => tmpPath_ne p h.symm

theorem parentDir_tmpPath (p : String) : parentDir (tmpPath p) = parentDir p := by
  unfold parentDir tmpPath
  rw [String.data_append]
  have hd : (".tmp" : String).data = ['.', 't', 'm', 'p'] := rfl
  rw [hd]
  simp [List.dropWhile]

/-! ## The atomic-writer net effect -/

theorem write_file_eq (p c : String) (md : Nat) (fs : FS) :
    write_file p c md fs =
      ((fs.addDir (parentDir p)).removeFile (tmpPath p)).setFile p c md := by
  simp only [write_file, wsteps, List.foldl_cons, List.foldl_nil, stepW,
    lookupFile_setFile_same, setFile_setFile, removeFile_setFile_same]

/-! ## Command-effect and preinstall reductions -/

@[simp] theorem execEffect_three (a b c : String) (fs : FS) :
    execEffect [a, b, c] fs = fs := by
  unfold execEffect
  split
  · simp_all
  · rfl

@[simp] theorem execEffect_four (a b c d : String) (fs : FS) :
    execEffect [a, b, c, d] fs = fs := by
  unfold execEffect
  split
  · simp_all
  · rfl

@[simp] theorem execEffect_five (a b c d e : String) (fs : FS) :
    execEffect [a, b, c, d, e] fs = fs := by
  unfold execEffect
  split
  · simp_all
  · rfl

@[simp] theorem execEffect_nine (a b c d e f g h i : String) (fs : FS) :
    execEffect [a, b, c, d, e, f, g, h, i] fs = fs := by
  unfold execEffect
  split
  · simp_all
  · rfl

@[simp] theorem execEffect_ten (a b c d e f g h i j : String) (fs : FS) :
    execEffect [a, b, c, d, e, f, g, h, i, j] fs = fs := by
  unfold execEffect
  split
  · simp_all
  · rfl

@[simp] theorem execEffect_clone (b r w : String) (fs : FS) :
    execEffect (cloneCmd b r w) fs = fs.addDir (w ++ "/.git") := rfl

@[simp] theorem execEffect_clone_list (b r w : String) (fs : FS) :
    execEffect ["git", "clone", "--depth=1", "--branch", b, r, w] fs =
      fs.addDir (w ++ "/.git") := rfl

theorem runPreinstall_closed (ex : Exec) (wd : String) (l : List String) (fs : FS)
    (hex : ∀ c, ex c = true) :
    runPreinstall ex wd l fs = (.ok (), fs, bashEvs wd l) := by
  induction l generalizing fs with
  | nil => rfl
  | cons c rest ih =>
    unfold runPreinstall
    rw [show shRun ex ["bash", "-lc", "cd " ++ wd ++ " && " ++ c] fs =
        (.ok (), fs, [Ev.run ["bash", "-lc", "cd " ++ wd ++ " && " ++ c]]) from by
      unfold shRun
      rw [hex]
      simp]
    rw [seqO, ih fs]
    rfl

/-! ## Stage lemmas: event shapes and closed forms -/

theorem shRun_evs (ex : Exec) (cmd : List String) (fs : FS) :
    (shRun ex cmd fs).2.2 = [Ev.run cmd] := by
  unfold shRun
  split <;> rfl

theorem seqO_ok (fs : FS) (ev : List Ev) (k : FS → Out) :
    seqO (.ok (), fs, ev) k = ((k fs).1, (k fs).2.1, ev ++ (k fs).2.2) := by
  unfold seqO
  rcases h : k fs with ⟨r2, fs2, ev2⟩
  simp [h]

theorem seqO_err (e : Err) (fs : FS) (ev : List Ev) (k : FS → Out) :
    seqO (.error e, fs, ev) k = (.error e, fs, ev) := rfl

theorem seqO_evs_cases (a : Out) (k : FS → Out) :
    (seqO a k).2.2 = a.2.2 ∨ (seqO a k).2.2 = a.2.2 ++ (k a.2.1).2.2 := by
  rcases a with ⟨res, fs, ev⟩
  cases res with
  | error e => left; rfl
  | ok u => right; rw [seqO_ok]

theorem seqO_evs_pred (P : Ev → Prop) (a : Out) (k : FS → Out)
    (ha : ∀ e ∈ a.2.2, P e) (hk : ∀ fs, ∀ e ∈ (k fs).2.2, P e) :
    ∀ e ∈ (seqO a k).2.2, P e := by
  rcases seqO_evs_cases a k with h | h <;> rw [h]
  · exact ha
  · intro e he
    rcases List.mem_append.mp he with h1 | h1
    · exact ha e h1
    · exact hk _ e h1

theorem runPreinstall_evs_pred (P : Ev → Prop) (ex : Exec) (wd : String)
    (l : List String) (fs : FS)
    (hP : ∀ c, P (Ev.run ["bash", "-lc", "cd " ++ wd ++ " && " ++ c])) :
    ∀ e ∈ (runPreinstall ex wd l fs).2.2, P e := by
  induction l generalizing fs with
  | nil =>
    intro e he
    simp [runPreinstall, skip] at he
  | cons c rest ih =>
    unfold runPreinstall
    refine seqO_evs_pred P _ _ ?_ (fun fs2 => ih fs2)
    intro e he
    rw [shRun_evs] at he
    simp at he
    subst he
    exact hP c

/-- Every event the Code Deployer can emit is a directory creation, a git
invocation, or a bash preinstall step. -/
theorem deploy_code_evs_shape (ex : Exec) (m : Manifest) (fs : FS) :
    ∀ e ∈ (deploy_code ex m fs).2.2,
      (∃ d, e = Ev.mkdir d) ∨
      (∃ c, e = Ev.run c ∧ (c.head? = some "git" ∨ c.head? = some "bash")) := by
  unfold deploy_code
  split
  · intro e he
    simp [fails] at he
  · refine seqO_evs_pred _ _ _ ?_ (fun fs1 => ?_)
    · intro e he
      simp [mkdirOp] at he
      subst he
      exact Or.inl ⟨_, rfl⟩
    · refine seqO_evs_pred _ _ _ ?_ (fun fs2 => ?_)
      · intro e he
        unfold gitStage at he
        split at he
        · split at he
          · simp [fails] at he
          · split at he
            · simp [skip] at he
            · rw [shRun_evs] at he
              simp at he
              subst he
              exact Or.inr ⟨_, rfl, Or.inl rfl⟩
        · simp [fails] at he
      · refine runPreinstall_evs_pred _ ex _ _ _ ?_
        intro c
        exact Or.inr ⟨_, rfl, Or.inr rfl⟩

theorem apache_apply_closed (ex : Exec) (r : Rnd) (m : Manifest) (fs : FS)
    (tpl : String) (ctx : VhostCtx) (hctx : vhostCtx m = .ok (tpl, ctx))
    (hex : ∀ c, ex c = true) :
    apache_apply ex r m fs =
      (.ok (), write_file (sitePath ctx.fqdn)
          (r.apacheTpl ("apache/" ++ tpl) ctx) 0o644 fs,
        apacheEvsOf r tpl ctx) := by
  simp [apache_apply, hctx, seqO, writeOp, shRun, hex, apacheEvsOf]

theorem systemd_apply_closed (ex : Exec) (r : Rnd) (m : Manifest) (fs : FS)
    (tpl svc : String) (ctx : UnitCtx)
    (hctx : unitCtx m = .ok (tpl, svc, ctx)) (hex : ∀ c, ex c = true) :
    systemd_apply ex r m fs =
      (.ok (), write_file ("/etc/systemd/system/" ++ svc)
          (r.systemdTpl ("systemd/" ++ tpl) ctx) 0o644 fs,
        systemdEvsOf r tpl svc ctx) := by
  simp [systemd_apply, hctx, seqO, writeOp, shRun, hex, systemdEvsOf]

theorem docker_apply_closed (ex : Exec) (r : Rnd) (m : Manifest) (fs : FS)
    (dk : DockerRec) (cp proj : String)
    (hdk : m.docker = some dk) (hcp : dk.compose_path = some cp)
    (hproj : dk.project = some proj) (hex : ∀ c, ex c = true) :
    docker_apply ex r m fs =
      (.ok (), write_file cp (r.composeTpl m) 0o644 fs,
        dockerEvsOf r m cp proj) := by
  simp [docker_apply, getE, hdk, hcp, hproj, seqO, writeOp, shRun, hex,
    dockerEvsOf, dockerUpCmd]

/-- Whatever the executor does, once the compose path and project lookups
succeed the Container Stack Applier emits exactly its three events, ending
with the up command. -/
theorem docker_apply_evs (ex : Exec) (r : Rnd) (m : Manifest) (fs : FS)
    (dk : DockerRec) (cp proj : String)
    (hdk : m.docker = some dk) (hcp : dk.compose_path = some cp)
    (hproj : dk.project = some proj) :
    (docker_apply ex r m fs).2.2 = dockerEvsOf r m cp proj := by
  simp only [docker_apply, getE, hdk, hcp, hproj, writeOp, seqO_ok, shRun_evs]
  rfl

theorem sslStep_false (ex : Exec) (m : Manifest) (fs : FS) (h : m.ssl = false) :
    sslStep ex m fs = (.ok (), fs, []) := by
  simp [sslStep, h, skip]

theorem sslStep_true (ex : Exec) (m : Manifest) (fs : FS) (fq : String)
    (h : m.ssl = true) (hfq : m.fqdn = some fq) (hex : ∀ c, ex c = true) :
    sslStep ex m fs = (.ok (), fs, [Ev.run (certbotCmd fq)]) := by
  simp [sslStep, h, hfq, getE, ensure_ssl, shRun, hex, certbotCmd]

theorem healthStep_closed (http : Http) (m : Manifest) (fs : FS) :
    healthStep http m fs = (.ok (), fs, healthEvs http m) := by
  unfold healthStep healthEvs
  split
  · rfl
  · split
    · rfl
    · split <;> rfl

/-- A successful vhost context fixes the manifest fields it read. -/
theorem vhostCtx_fields (m : Manifest) (tpl : String) (ctx : VhostCtx)
    (h : vhostCtx m = .ok (tpl, ctx)) : m.fqdn = some ctx.fqdn := by
  unfold vhostCtx at h
  cases hap : m.apache with
  | none => simp [getE, hap, Bind.bind, Except.bind] at h
  | some ap =>
    cases htpl : ap.template with
    | none => simp [getE, hap, htpl, Bind.bind, Except.bind] at h
    | some tpl0 =>
      cases hfq : m.fqdn with
      | none => simp [getE, hap, htpl, hfq, Bind.bind, Except.bind] at h
      | some fq0 =>
        cases hnm : m.name with
        | none => simp [getE, hap, htpl, hfq, hnm, Bind.bind, Except.bind] at h
        | some nm0 =>
          simp [getE, hap, htpl, hfq, hnm, Bind.bind, Except.bind] at h
          rw [← h.2]

/-- The vhost context of the manifest after endpoint resolution: backend host
and port are exactly the resolved values. -/
theorem vhostCtx_withBackend (m : Manifest) (ap : ApacheRec)
    (tpl fq nm host : String) (prt : Int)
    (hap : m.apache = some ap) (htpl : ap.template = some tpl)
    (hfq : m.fqdn = some fq) (hnm : m.name = some nm) :
    vhostCtx (withBackendHostPort m host prt) = .ok (tpl,
      { fqdn := fq, backend_host := host, backend_port := prt,
        docroot := (m.flutter.getD {}).document_root.getD "/var/www/html",
        logPrefix := ap.logPrefix.getD nm }) := by
  simp [vhostCtx, withBackendHostPort, getE, hap, htpl, hfq, hnm,
    Bind.bind, Except.bind]

theorem elem_append_singleton (l : List String) (d e : String) :
    (l ++ [e]).elem d = (l.elem d || d == e) := by
  induction l with
  | nil =>
    rw [List.nil_append, List.elem_cons, List.elem_nil]
    cases h : d == e <;> rfl
  | cons a as ih =>
    rw [List.cons_append, List.elem_cons, List.elem_cons]
    cases h : d == a
    · exact ih
    · rfl

theorem hasDir_addDir (fs : FS) (d e : String) :
    (fs.addDir e).hasDir d = (fs.hasDir d || d == e) := by
  unfold FS.addDir FS.hasDir
  split
  · rename_i hcon
    cases hde : d == e
    · simp
    · have hde2 : d = e := by simpa using hde
      subst hde2
      simp [List.contains] at hcon ⊢
      simp [hcon]
  · exact elem_append_singleton fs.dirs d e

theorem append_ne_self (p s : String) (hs : s ≠ "") : p ++ s ≠ p := by
  intro h
  have hl := congrArg String.length h
  rw [String.length_append] at hl
  have h0 : s.length = 0 := by omega
  have h1 : s.data = [] := List.length_eq_zero.mp h0
  exact hs (by cases s; simp_all)

theorem seqO_mem_left (a : Out) (k : FS → Out) (e : Ev) (he : e ∈ a.2.2) :
    e ∈ (seqO a k).2.2 := by
  rcases seqO_evs_cases a k with h | h <;> rw [h]
  · exact he
  · exact List.mem_append_left _ he

theorem seqO_mem_right (fs : FS) (ev : List Ev) (k : FS → Out) (e : Ev)
    (he : e ∈ (k fs).2.2) : e ∈ (seqO (.ok (), fs, ev) k).2.2 := by
  rw [seqO_ok]
  exact List.mem_append_right _ he

/-! ## No-git event shapes of the non-deploy stages -/

theorem apache_apply_no_git (ex : Exec) (r : Rnd) (m : Manifest) (fs : FS) :
    ∀ e ∈ (apache_apply ex r m fs).2.2, isGitEv e = false := by
  unfold apache_apply
  split
  · intro e he
    simp [fails] at he
  · refine seqO_evs_pred _ _ _ ?_ (fun fs2 => seqO_evs_pred _ _ _ ?_ (fun fs3 => ?_)) <;>
      intro e he
    · simp [writeOp] at he
      rcases he with he | he <;> subst he <;> rfl
    · rw [shRun_evs] at he
      simp at he
      subst he
      rfl
    · rw [shRun_evs] at he
      simp at he
      subst he
      rfl

theorem sslStep_no_git (ex : Exec) (m : Manifest) (fs : FS) :
    ∀ e ∈ (sslStep ex m fs).2.2, isGitEv e = false := by
  unfold sslStep
  split
  · split
    · intro e he
      simp [fails] at he
    · intro e he
      unfold ensure_ssl at he
      rw [shRun_evs] at he
      simp at he
      subst he
      rfl
  · intro e he
    simp [skip] at he

theorem healthStep_no_git (http : Http) (m : Manifest) (fs : FS) :
    ∀ e ∈ (healthStep http m fs).2.2, isGitEv e = false := by
  rw [healthStep_closed]
  show ∀ e ∈ healthEvs http m, isGitEv e = false
  unfold healthEvs
  split
  · intro e he
    simp at he
  · split
    · intro e he
      simp at he
    · split <;> intro e he <;> simp at he <;>
        rcases he with he | he <;> subst he <;> rfl

theorem dispatch_flutter_no_git (ex : Exec) (r : Rnd) (m : Manifest) (fs : FS) :
    ∀ e ∈ (dispatchKind ex r m "flutter" fs).2.2, isGitEv e = false := by
  unfold dispatchKind
  rw [if_neg (by decide), if_pos rfl]
  refine seqO_evs_pred _ _ _ (apache_apply_no_git ex r m fs) (fun fs2 => ?_)
  intro e he
  split at he
  · simp [fails] at he
  · split at he
    · simp [fails] at he
    · simp [mkdirOp] at he
      subst he
      rfl

/-! ## Claim C8 -/

/-- C8: the file writer writes the content to a temporary path in the same
directory as the target, sets permissions, then performs a single atomic
rename over the target, creating the parent directory; executing any prefix
of its steps that stops before the rename leaves the target path unchanged
(prior content intact, or still absent), while the full sequence installs the
new content with the requested mode. -/
theorem C8_write_file_atomic (path content : String) (md : Nat) (fs : FS)
    (k : Nat) (hk : k ≤ 3) :
    parentDir (tmpPath path) = parentDir path ∧
    ((wsteps.take k).foldl (stepW path content md) fs).lookupFile path =
      fs.lookupFile path ∧
    (write_file path content md fs).lookupFile path = some (content, md) ∧
    (write_file path content md fs).hasDir (parentDir path) = true := by
  refine ⟨parentDir_tmpPath path, ?_, ?_, ?_⟩
  · interval_cases k
    · rfl
    · have ht : wsteps.take 1 = [WStep.mkdirParents] := rfl
      rw [ht]
      simp only [List.foldl_cons, List.foldl_nil, stepW]
      exact lookupFile_addDir ..
    · have ht : wsteps.take 2 = [WStep.mkdirParents, WStep.writeTmp] := rfl
      rw [ht]
      simp only [List.foldl_cons, List.foldl_nil, stepW]
      rw [lookupFile_setFile_ne _ _ _ _ _ (tmpPath_ne_symm path)]
      exact lookupFile_addDir ..
    · have ht : wsteps.take 3 = [WStep.mkdirParents, WStep.writeTmp, WStep.chmodTmp] := rfl
      rw [ht]
      simp only [List.foldl_cons, List.foldl_nil, stepW,
        lookupFile_setFile_same, setFile_setFile]
      rw [lookupFile_setFile_ne _ _ _ _ _ (tmpPath_ne_symm path)]
      exact lookupFile_addDir ..
  · rw [write_file_eq]
    exact lookupFile_setFile_same ..
  · rw [write_file_eq]
    simp only [hasDir_setFile, hasDir_removeFile]
    exact hasDir_addDir_self ..

theorem C8_write_file_atomic_witness :
    2 ≤ 3 ∧
    (parentDir (tmpPath "/a/b.conf") = parentDir "/a/b.conf" ∧
     ((wsteps.take 2).foldl (stepW "/a/b.conf" "new" 420)
        ⟨[("/a/b.conf", "old", 420)], []⟩).lookupFile "/a/b.conf" =
       (⟨[("/a/b.conf", "old", 420)], []⟩ : FS).lookupFile "/a/b.conf" ∧
     (write_file "/a/b.conf" "new" 420
        ⟨[("/a/b.conf", "old", 420)], []⟩).lookupFile "/a/b.conf" =
       some ("new", 420) ∧
     (write_file "/a/b.conf" "new" 420
        ⟨[("/a/b.conf", "old", 420)], []⟩).hasDir (parentDir "/a/b.conf") = true) :=
  ⟨by decide, C8_write_file_atomic "/a/b.conf" "new" 420
    ⟨[("/a/b.conf", "old", 420)], []⟩ 2 (by decide)⟩

/-! ## Claim C9 -/

/-- C9: a manifest whose kind is none of the supported kinds makes apply stop
with a configuration error carrying exit code 2, with the filesystem
untouched and the unsupported-kind message as the only event: no applier
runs, no deployer runs, no command is issued, and nothing is written. -/
theorem C9_unsupported_kind (ex : Exec) (http : Http) (r : Rnd) (m : Manifest)
    (kind : String) (fs : FS) (hk : m.kind = some kind)
    (h1 : kind ≠ "fastapi") (h2 : kind ≠ "streamlit") (h3 : kind ≠ "flutter")
    (h4 : kind ≠ "docker") :
    apply ex http r m fs =
      (.error (.exitCode 2), fs, [Ev.echo ("Unsupported kind: " ++ kind)]) := by
  simp only [apply, getE, hk, dispatchKind, h1, h2, h3, h4, seqO,
    if_false, or_self, ite_false]

theorem C9_unsupported_kind_witness :
    apply allOk httpNone rndX { name := some "x", kind := some "unknown-kind" } {} =
      (.error (.exitCode 2), {}, [Ev.echo "Unsupported kind: unknown-kind"]) :=
  C9_unsupported_kind allOk httpNone rndX _ "unknown-kind" {} rfl
    (by decide) (by decide) (by decide) (by decide)

/-! ## Claim C10 -/

/-- C10: when the Reverse Proxy Applier runs on a manifest without a backend
record and without a static-site record, it does not fail: the rendered
context falls back to backend host 127.0.0.1, backend port 8000, and document
root /var/www/html. -/
theorem C10_proxy_defaults (ex : Exec) (r : Rnd) (m : Manifest) (fs : FS)
    (ap : ApacheRec) (tpl fq nm : String)
    (hap : m.apache = some ap) (htpl : ap.template = some tpl)
    (hfq : m.fqdn = some fq) (hnm : m.name = some nm)
    (hbe : m.backend = none) (hfl : m.flutter = none)
    (hex : ∀ c, ex c = true) :
    vhostCtx m = .ok (tpl,
      { fqdn := fq, backend_host := "127.0.0.1", backend_port := 8000,
        docroot := "/var/www/html", logPrefix := ap.logPrefix.getD nm }) ∧
    (apache_apply ex r m fs).1 = .ok () := by
  have hctx : vhostCtx m = .ok (tpl,
      { fqdn := fq, backend_host := "127.0.0.1", backend_port := 8000,
        docroot := "/var/www/html", logPrefix := ap.logPrefix.getD nm }) := by
    simp [vhostCtx, getE, hap, htpl, hfq, hnm, hbe, hfl, Bind.bind, Except.bind]
  refine ⟨hctx, ?_⟩
  unfold apache_apply
  rw [hctx]
  simp [seqO, writeOp, shRun, hex]

/-! ## Claim C3

The source pairs the else branch of deploy_code with the scm-presence test,
not with the checkout-existence test, so an existing checkout receives
neither a fetch nor a reset. -/

/-- C3: with a source record and an existing checkout (the .git marker is
present in the working directory), the Code Deployer issues no git command at
all: the filesystem keeps every local modification and the trace holds only
the working-directory mkdir and the preinstall shell steps — there is no
shallow fetch and no hard reset. -/
theorem C3_existing_checkout_not_updated (ex : Exec) (m : Manifest) (fs : FS)
    (wd repo : String) (scm : ScmRec)
    (hscm : m.scm = some scm) (hrepo : scm.repo = some repo)
    (hwd : wdOf m = .ok wd)
    (hgit : fs.hasDir (wd ++ "/.git") = true)
    (hex : ∀ c, ex c = true) :
    deploy_code ex m fs =
      (.ok (), fs.addDir wd, [Ev.mkdir wd] ++ bashEvs wd (preinstallOf m)) := by
  have hg2 : (fs.addDir wd).hasDir (wd ++ "/.git") = true :=
    hasDir_addDir_of _ _ _ hgit
  simp [deploy_code, hwd, mkdirOp, gitStage, getE, hscm, hrepo, hg2, seqO, skip,
    runPreinstall_closed ex wd (preinstallOf m) (fs.addDir wd) hex]

theorem C3_existing_checkout_not_updated_witness :
    deploy_code allOk
      { name := some "api", kind := some "fastapi",
        backend := some { working_dir := some "/srv/api" },
        scm := some { repo := some "git@github.com:org/repo.git" } }
      ⟨[("/srv/api/app.py", "locally modified", 420)], ["/srv/api", "/srv/api/.git"]⟩ =
      (.ok (),
        FS.addDir ⟨[("/srv/api/app.py", "locally modified", 420)], ["/srv/api", "/srv/api/.git"]⟩ "/srv/api",
        [Ev.mkdir "/srv/api"] ++ bashEvs "/srv/api" (preinstallOf
          { name := some "api", kind := some "fastapi",
            backend := some { working_dir := some "/srv/api" },
            scm := some { repo := some "git@github.com:org/repo.git" } })) :=
  C3_existing_checkout_not_updated allOk _ _ "/srv/api" "git@github.com:org/repo.git"
    { repo := some "git@github.com:org/repo.git" } rfl rfl rfl (by decide) (fun _ => rfl)

/-! ## Claim C1

The certbot invocation in apply is not wrapped in any exception handler
(unlike the health probe), so a Certificate Manager failure propagates and
the apply fails; prior convergence effects are kept. -/

/-- C1 counterexample: on a manifest with tls_requested whose certbot
invocation fails, apply does NOT succeed — the process error propagates —
even though convergence had already happened (the proxy site file write is in
the trace).  This refutes the claim that the apply is still considered
successful. -/
theorem C1_counterexample :
    (apply exC1 httpNone rndX mC1 {}).1 =
      .error (.calledProcess (certbotCmd "ex.org")) ∧
    Ev.write "/etc/apache2/sites-available/ex.org.conf"
      (rndX.apacheTpl "apache/flutter.conf.j2"
        { fqdn := "ex.org", backend_host := "127.0.0.1", backend_port := 8000,
          docroot := "/var/www/web", logPrefix := "web" }) 420
      ∈ (apply exC1 httpNone rndX mC1 {}).2.2 := by
  constructor
  · rfl
  · decide

/-- C1 amended: when the dispatch phase has converged and the certbot command
fails, apply returns that process error — the apply is not successful and the
health probe never runs — but nothing is reverted: the filesystem stays
exactly as convergence left it and every convergence event is retained, with
only the certbot invocation appended. -/
theorem C1_cert_failure_fatal_no_revert (ex : Exec) (http : Http) (r : Rnd)
    (m : Manifest) (kind : String) (fs fs1 : FS) (ev1 : List Ev) (fq : String)
    (hk : m.kind = some kind)
    (hd : dispatchKind ex r m kind fs = (.ok (), fs1, ev1))
    (hssl : m.ssl = true) (hfq : m.fqdn = some fq)
    (hcert : ex (certbotCmd fq) = false) :
    apply ex http r m fs =
      (.error (.calledProcess (certbotCmd fq)), fs1,
        ev1 ++ [Ev.run (certbotCmd fq)]) := by
  simp [apply, getE, hk, hd, seqO, sslStep, hssl, hfq, ensure_ssl, shRun, hcert]

theorem C1_cert_failure_fatal_no_revert_witness :
    mC1.kind = some "flutter" ∧
    dispatchKind exC1 rndX mC1 "flutter" {} =
      (.ok (), (dispatchKind exC1 rndX mC1 "flutter" {}).2.1,
        (dispatchKind exC1 rndX mC1 "flutter" {}).2.2) ∧
    mC1.ssl = true ∧ mC1.fqdn = some "ex.org" ∧
    exC1 (certbotCmd "ex.org") = false ∧
    apply exC1 httpNone rndX mC1 {} =
      (.error (.calledProcess (certbotCmd "ex.org")),
        (dispatchKind exC1 rndX mC1 "flutter" {}).2.1,
        (dispatchKind exC1 rndX mC1 "flutter" {}).2.2 ++
          [Ev.run (certbotCmd "ex.org")]) :=
  ⟨rfl, rfl, rfl, rfl, rfl,
    C1_cert_failure_fatal_no_revert exC1 httpNone rndX mC1 "flutter" {} _ _ "ex.org"
      rfl rfl rfl rfl rfl⟩

/-! ## Claim C5

The flutter branch of apply calls the Reverse Proxy Applier before creating
the document root, so the spec sentence "ensures the document root first" is
reversed relative to the code. -/

/-- C5 counterexample: on a concrete static-site manifest, the proxy site
file is rendered, written and enabled BEFORE the document root directory is
ensured — the write event strictly precedes the document-root mkdir event —
refuting the claim that the document root is ensured first. -/
theorem C5_counterexample :
    (Ev.write (sitePath "ex5.org")
        (rndX.apacheTpl "apache/flutter.conf.j2"
          { fqdn := "ex5.org", backend_host := "127.0.0.1", backend_port := 8000,
            docroot := "/var/www/web5", logPrefix := "web5" }) 420
      ∈ (apply allOk httpNone rndX mC5 {}).2.2) ∧
    (Ev.mkdir "/var/www/web5" ∈ (apply allOk httpNone rndX mC5 {}).2.2) ∧
    firstIdx (Ev.write (sitePath "ex5.org")
        (rndX.apacheTpl "apache/flutter.conf.j2"
          { fqdn := "ex5.org", backend_host := "127.0.0.1", backend_port := 8000,
            docroot := "/var/www/web5", logPrefix := "web5" }) 420)
        (apply allOk httpNone rndX mC5 {}).2.2 <
      firstIdx (Ev.mkdir "/var/www/web5") (apply allOk httpNone rndX mC5 {}).2.2 := by
  refine ⟨by decide, by decide, by decide⟩

/-- C5 amended: for every static-site manifest, apply runs the Reverse Proxy
Applier first (mkdir of the sites directory, site file write, enable command,
proxy reload) and only afterwards ensures the document root: the first five
trace events are exactly the proxy applier events followed by the
document-root mkdir. -/
theorem C5_amended_proxy_first_then_docroot (ex : Exec) (http : Http) (r : Rnd)
    (m : Manifest) (fs : FS) (tpl : String) (ctx : VhostCtx)
    (fl : FlutterRec) (dr : String)
    (hk : m.kind = some "flutter")
    (hctx : vhostCtx m = .ok (tpl, ctx))
    (hfl : m.flutter = some fl) (hdr : fl.document_root = some dr)
    (hex : ∀ c, ex c = true) :
    ((apply ex http r m fs).2.2).take 5 =
      apacheEvsOf r tpl ctx ++ [Ev.mkdir dr] := by
  have hdisp : dispatchKind ex r m "flutter" fs =
      (.ok (), (write_file (sitePath ctx.fqdn)
          (r.apacheTpl ("apache/" ++ tpl) ctx) 0o644 fs).addDir dr,
        apacheEvsOf r tpl ctx ++ [Ev.mkdir dr]) := by
    unfold dispatchKind
    rw [if_neg (by decide), if_pos rfl]
    rw [apache_apply_closed ex r m fs tpl ctx hctx hex, seqO_ok]
    simp [getE, hfl, hdr, mkdirOp]
  unfold apply getE
  rw [hk]
  simp only []
  rw [hdisp, seqO_ok]
  show ((apacheEvsOf r tpl ctx ++ [Ev.mkdir dr]) ++ _).take 5 = _
  rw [show (5 : Nat) = (apacheEvsOf r tpl ctx ++ [Ev.mkdir dr]).length from rfl]
  exact List.take_left _ _

theorem C5_amended_proxy_first_then_docroot_witness :
    ((apply allOk httpNone rndX mC5 {}).2.2).take 5 =
      apacheEvsOf rndX "flutter.conf.j2"
        { fqdn := "ex5.org", backend_host := "127.0.0.1", backend_port := 8000,
          docroot := "/var/www/web5", logPrefix := "web5" } ++
      [Ev.mkdir "/var/www/web5"] :=
  C5_amended_proxy_first_then_docroot allOk httpNone rndX mC5 {}
    "flutter.conf.j2"
    { fqdn := "ex5.org", backend_host := "127.0.0.1", backend_port := 8000,
      docroot := "/var/www/web5", logPrefix := "web5" }
    { document_root := some "/var/www/web5" } "/var/www/web5"
    rfl rfl rfl rfl (fun _ => rfl)

/-! ## Claim C2

Apply chooses whether to run the Code Deployer by KIND, not by the presence
of a source record: flutter skips it even with a source record, and the
deployer kinds run it even without one (where the dangling-else bug raises
NameError instead of skipping). -/

/-- C2 counterexample: a static-site manifest that DOES declare a source
record applies successfully with no git invocation at all (deployer skipped
despite the source), and a native-service manifest WITHOUT a source record
does not skip deployment and proceed — apply aborts with the unbound-name
error of the fetch branch. -/
theorem C2_counterexample :
    ((apply allOk httpNone rndX mC2a {}).1 = .ok () ∧
     hasGitCmd (apply allOk httpNone rndX mC2a {}).2.2 = false) ∧
    (apply allOk httpNone rndX mC2b {}).1 = .error (.nameError "branch") := by
  refine ⟨⟨rfl, by decide⟩, rfl⟩

/-- Without a source record the deployer hits the unbound fetch branch. -/
theorem deploy_code_no_scm (ex : Exec) (m : Manifest) (fs : FS) (wd : String)
    (hscm : m.scm = none) (hwd : wdOf m = .ok wd) :
    deploy_code ex m fs =
      (.error (.nameError "branch"), fs.addDir wd, [Ev.mkdir wd]) := by
  unfold deploy_code
  rw [hwd]
  simp only [mkdirOp, seqO_ok]
  unfold gitStage
  rw [hscm]
  simp [fails, seqO_err]

/-- With a source record and no checkout marker, the deployer issues the
shallow clone of the requested branch. -/
theorem deploy_code_clone_mem (ex : Exec) (m : Manifest) (fs : FS)
    (wd repo : String) (scm : ScmRec)
    (hscm : m.scm = some scm) (hrepo : scm.repo = some repo)
    (hwd : wdOf m = .ok wd) (hgit : fs.hasDir (wd ++ "/.git") = false) :
    Ev.run (cloneCmd (scm.branch.getD "main") repo wd) ∈
      (deploy_code ex m fs).2.2 := by
  have hgit2 : (fs.addDir wd).hasDir (wd ++ "/.git") = false := by
    rw [hasDir_addDir, hgit]
    have : (wd ++ "/.git") ≠ wd := append_ne_self wd "/.git" (by decide)
    simp [this]
  unfold deploy_code
  rw [hwd]
  simp only [mkdirOp, seqO_ok]
  refine List.mem_append_right _ ?_
  refine seqO_mem_left _ _ _ ?_
  unfold gitStage getE
  simp only [hscm, hrepo, hgit2, Bool.false_eq_true, if_false]
  rw [shRun_evs]
  exact List.mem_singleton.mpr rfl

/-- C2 amended: apply runs the Code Deployer exactly for the kinds fastapi,
streamlit and docker, regardless of the source record: a static-site
(flutter) manifest never issues a git command even when a source record is
present; a deployer kind with a source record and no checkout issues the
shallow clone; and a deployer kind without a source record does not skip
deployment but aborts with the unbound-variable error of the fetch branch. -/
theorem C2_amended_deployer_chosen_by_kind :
    (∀ ex http r m fs, Manifest.kind m = some "flutter" →
       hasGitCmd (apply ex http r m fs).2.2 = false) ∧
    (∀ ex http r m fs kind wd, Manifest.kind m = some kind →
       (kind = "fastapi" ∨ kind = "streamlit" ∨ kind = "docker") →
       Manifest.scm m = none → wdOf m = .ok wd →
       (apply ex http r m fs).1 = .error (.nameError "branch")) ∧
    (∀ ex http r m fs kind wd repo scm, Manifest.kind m = some kind →
       (kind = "fastapi" ∨ kind = "streamlit" ∨ kind = "docker") →
       Manifest.scm m = some scm → ScmRec.repo scm = some repo →
       wdOf m = .ok wd → FS.hasDir fs (wd ++ "/.git") = false →
       Ev.run (cloneCmd (scm.branch.getD "main") repo wd) ∈
         (apply ex http r m fs).2.2) := by
  refine ⟨?_, ?_, ?_⟩
  · intro ex http r m fs hk
    rw [hasGitCmd, List.any_eq_false]
    intro e he
    have : isGitEv e = false := by
      revert e he
      unfold apply getE
      rw [hk]
      simp only []
      refine seqO_evs_pred _ _ _ (dispatch_flutter_no_git ex r m fs) (fun fs2 => ?_)
      exact seqO_evs_pred _ _ _ (sslStep_no_git ex m fs2)
        (fun fs3 => healthStep_no_git http m fs3)
    simp [this]
  · intro ex http r m fs kind wd hk hkind hscm hwd
    unfold apply getE
    rw [hk]
    simp only []
    rcases hkind with h | h | h <;> subst h <;> unfold dispatchKind
    · rw [if_pos (Or.inl rfl)]
      rw [deploy_code_no_scm ex m fs wd hscm hwd]
      rfl
    · rw [if_pos (Or.inr rfl)]
      rw [deploy_code_no_scm ex m fs wd hscm hwd]
      rfl
    · rw [if_neg (by decide), if_neg (by decide), if_pos rfl]
      rw [deploy_code_no_scm ex m fs wd hscm hwd]
      rfl
  · intro ex http r m fs kind wd repo scm hk hkind hscm hrepo hwd hgit
    have hmem := deploy_code_clone_mem ex m fs wd repo scm hscm hrepo hwd hgit
    unfold apply getE
    rw [hk]
    simp only []
    refine seqO_mem_left _ _ _ ?_
    rcases hkind with h | h | h <;> subst h <;> unfold dispatchKind
    · rw [if_pos (Or.inl rfl)]
      exact seqO_mem_left _ _ _ hmem
    · rw [if_pos (Or.inr rfl)]
      exact seqO_mem_left _ _ _ hmem
    · rw [if_neg (by decide), if_neg (by decide), if_pos rfl]
      exact seqO_mem_left _ _ _ hmem

theorem C2_amended_deployer_chosen_by_kind_witness :
    hasGitCmd (apply allOk httpNone rndX mC2a {}).2.2 = false ∧
    (apply allOk httpNone rndX mC2b {}).1 = .error (.nameError "branch") ∧
    Ev.run (cloneCmd "main" "git@github.com:org/api4.git" "/srv/api4") ∈
      (apply allOk httpNone rndX mC4 {}).2.2 :=
  ⟨C2_amended_deployer_chosen_by_kind.1 allOk httpNone rndX mC2a {} rfl,
   C2_amended_deployer_chosen_by_kind.2.1 allOk httpNone rndX mC2b {}
     "fastapi" "/srv/api2" rfl (Or.inl rfl) rfl rfl,
   C2_amended_deployer_chosen_by_kind.2.2 allOk httpNone rndX mC4 {}
     "fastapi" "/srv/api4" "git@github.com:org/api4.git"
     { repo := some "git@github.com:org/api4.git" }
     rfl (Or.inl rfl) rfl rfl rfl rfl⟩

/-! ## Claim C4

load_manifest performs no validation, so a missing required sub-record only
surfaces as a key lookup error at the point an applier first needs it — after
the deploy stage has already run its side effects. -/

/-- Closed form of a successful Code Deployer run: mkdir, a clone only when
the checkout marker is absent, then the preinstall steps. -/
theorem deploy_code_closed (ex : Exec) (m : Manifest) (fs : FS)
    (wd repo : String) (scm : ScmRec)
    (hscm : m.scm = some scm) (hrepo : scm.repo = some repo)
    (hwd : wdOf m = .ok wd) (hex : ∀ c, ex c = true) :
    deploy_code ex m fs =
      (.ok (), gitFS fs wd,
        [Ev.mkdir wd] ++ gitEvs fs wd scm repo ++ bashEvs wd (preinstallOf m)) := by
  unfold gitFS gitEvs
  have hpre := fun fs2 => runPreinstall_closed ex wd (preinstallOf m) fs2 hex
  unfold deploy_code
  rw [hwd]
  simp only [mkdirOp, seqO_ok]
  unfold gitStage getE
  simp only [hscm, hrepo]
  by_cases hgit : (fs.addDir wd).hasDir (wd ++ "/.git") = true
  · simp [hgit, skip, seqO_ok, hpre]
  · simp only [Bool.not_eq_true] at hgit
    simp [hgit, shRun, hex, seqO_ok, hpre, cloneCmd]

/-- C4 counterexample: a native-service manifest missing its required service
sub-record is NOT rejected before side effects: apply performs the deploy
side effects (the git clone command is in the trace) and only then aborts
with an uncaught key lookup error — not an exit-code-2 configuration error
issued before any side effect. -/
theorem C4_counterexample :
    (apply allOk httpNone rndX mC4 {}).1 = .error (.keyError "service") ∧
    Ev.run (cloneCmd "main" "git@github.com:org/api4.git" "/srv/api4")
      ∈ (apply allOk httpNone rndX mC4 {}).2.2 := by
  exact ⟨rfl, by decide⟩

/-- C4 amended: a manifest whose kind requires a sub-record that is absent
(here: native-service without service) fails only when the applier first
looks the record up, with a key error rather than a configuration error, and
the deploy stage has already performed its side effects by then (the
working-directory mkdir is in the trace). -/
theorem C4_amended_keyerror_after_deploy (ex : Exec) (http : Http) (r : Rnd)
    (m : Manifest) (fs : FS) (wd repo : String) (scm : ScmRec)
    (hk : m.kind = some "fastapi") (hscm : m.scm = some scm)
    (hrepo : scm.repo = some repo) (hwd : wdOf m = .ok wd)
    (hsvc : m.service = none) (hex : ∀ c, ex c = true) :
    (apply ex http r m fs).1 = .error (.keyError "service") ∧
    Ev.mkdir wd ∈ (apply ex http r m fs).2.2 := by
  have hdep := deploy_code_closed ex m fs wd repo scm hscm hrepo hwd hex
  have hunit : unitCtx m = .error (.keyError "service") := by
    simp [unitCtx, getE, hsvc, Bind.bind, Except.bind]
  have hsys : ∀ fs2, systemd_apply ex r m fs2 = (.error (.keyError "service"), fs2, []) := by
    intro fs2
    unfold systemd_apply
    rw [hunit]
    rfl
  unfold apply getE
  rw [hk]
  simp only []
  unfold dispatchKind
  rw [if_pos (Or.inl rfl)]
  rw [hdep, seqO_ok, hsys, seqO_err]
  rw [seqO_err]
  constructor
  · rfl
  · simp

theorem C4_amended_keyerror_after_deploy_witness :
    (apply allOk httpNone rndX mC4 {}).1 = .error (.keyError "service") ∧
    Ev.mkdir "/srv/api4" ∈ (apply allOk httpNone rndX mC4 {}).2.2 :=
  C4_amended_keyerror_after_deploy allOk httpNone rndX mC4 {} "/srv/api4"
    "git@github.com:org/api4.git" { repo := some "git@github.com:org/api4.git" }
    rfl rfl rfl rfl rfl (fun _ => rfl)

/-! ## Claim C6 helper lemmas -/

theorem upBefore_append_clean (u : List String) (p : String) (l₁ l₂ : List Ev)
    (h : ∀ e ∈ l₁, cleanFor u p e = true) :
    upBefore u p (l₁ ++ l₂) = upBefore u p l₂ := by
  induction l₁ with
  | nil => rfl
  | cons a rest ih =>
    have ha := h a (List.mem_cons_self a rest)
    have hrest := fun e he => h e (List.mem_cons_of_mem a he)
    rw [List.cons_append]
    cases a with
    | run c =>
      have hcu : c ≠ u := by simpa [cleanFor] using ha
      simp only [upBefore, if_neg hcu]
      exact ih hrest
    | write q c md =>
      have hqp : q ≠ p := by simpa [cleanFor] using ha
      simp only [upBefore, if_neg hqp]
      exact ih hrest
    | mkdir d =>
      simp only [upBefore]
      exact ih hrest
    | echo s =>
      simp only [upBefore]
      exact ih hrest
    | httpGet s =>
      simp only [upBefore]
      exact ih hrest

theorem upBefore_of_clean (u : List String) (p : String) (l : List Ev)
    (h : ∀ e ∈ l, cleanFor u p e = true) : upBefore u p l = true := by
  have h2 := upBefore_append_clean u p l [] h
  rw [List.append_nil] at h2
  rw [h2]
  rfl

/-- Deploy events are clean relative to any sudo command and any path. -/
theorem deploy_evs_clean (ex : Exec) (m : Manifest) (fs : FS)
    (u : List String) (p : String) (hu : u.head? = some "sudo") :
    ∀ e ∈ (deploy_code ex m fs).2.2, cleanFor u p e = true := by
  intro e he
  rcases deploy_code_evs_shape ex m fs e he with ⟨d, rfl⟩ | ⟨c, rfl, hc⟩
  · rfl
  · show (c != u) = true
    simp only [bne_iff_ne, ne_eq]
    intro hcu
    subst hcu
    rcases hc with hc | hc <;> rw [hu] at hc <;> simp at hc

/-- Once the container events are reached, the up command is hit before any
write to the proxy site path, whatever follows. -/
theorem upBefore_dockerEvs (r : Rnd) (m : Manifest) (cp proj sp : String)
    (X : List Ev) (hne : cp ≠ sp) :
    upBefore (dockerUpCmd cp proj) sp (dockerEvsOf r m cp proj ++ X) = true := by
  simp [dockerEvsOf, upBefore, hne]

/-- Any write event the Reverse Proxy Applier emits carries exactly the
rendered virtual host for its context. -/
theorem apache_apply_write_pred (ex : Exec) (r : Rnd) (m : Manifest) (fs : FS)
    (tpl : String) (ctx : VhostCtx) (hctx : vhostCtx m = .ok (tpl, ctx)) :
    ∀ e ∈ (apache_apply ex r m fs).2.2, ∀ q c md, e = Ev.write q c md →
      q = sitePath ctx.fqdn ∧ c = r.apacheTpl ("apache/" ++ tpl) ctx := by
  unfold apache_apply
  rw [hctx]
  simp only []
  refine seqO_evs_pred _ _ _ ?_ (fun fs2 => seqO_evs_pred _ _ _ ?_ (fun fs3 => ?_)) <;>
    intro e he
  · simp [writeOp] at he
    rcases he with he | he <;> subst he <;> intro q c md hqe
    · cases hqe
    · injection hqe with h1 h2 h3
      exact ⟨h1.symm, h2.symm⟩
  · rw [shRun_evs] at he
    simp at he
    subst he
    intro q c md hqe
    cases hqe
  · rw [shRun_evs] at he
    simp at he
    subst he
    intro q c md hqe
    cases hqe

theorem sslStep_no_write (ex : Exec) (m : Manifest) (fs : FS) :
    ∀ e ∈ (sslStep ex m fs).2.2, isWrite e = false := by
  unfold sslStep
  split
  · split
    · intro e he
      simp [fails] at he
    · intro e he
      unfold ensure_ssl at he
      rw [shRun_evs] at he
      simp at he
      subst he
      rfl
  · intro e he
    simp [skip] at he

theorem healthStep_no_write (http : Http) (m : Manifest) (fs : FS) :
    ∀ e ∈ (healthStep http m fs).2.2, isWrite e = false := by
  rw [healthStep_closed]
  show ∀ e ∈ healthEvs http m, isWrite e = false
  unfold healthEvs
  split
  · intro e he
    simp at he
  · split
    · intro e he
      simp at he
    · split <;> intro e he <;> simp at he <;>
        rcases he with he | he <;> subst he <;> rfl

/-- C6: for a container-stack manifest with a proxy sub-record, the
reverse-proxy site file is never written before the container up command has
been issued (the point at which the published endpoint is in effect), and
every write of the site file carries the virtual host rendered with exactly
the backend host and port parsed from container.published_endpoint — never a
stale or default value. -/
theorem C6_proxy_after_endpoint (ex : Exec) (http : Http) (r : Rnd)
    (m : Manifest) (fs : FS) (ap : ApacheRec) (dk : DockerRec) (pub : PublishRec)
    (tpl fq nm cp proj hp host prtStr : String) (prt : Int)
    (hk : m.kind = some "docker") (hap : m.apache = some ap)
    (htpl : ap.template = some tpl) (hfq : m.fqdn = some fq)
    (hnm : m.name = some nm)
    (hdk : m.docker = some dk) (hcp : dk.compose_path = some cp)
    (hproj : dk.project = some proj) (hpub : dk.publish = some pub)
    (hhp : pub.http_target = some hp)
    (hsplit : split2 hp ':' = .ok (host, prtStr)) (hint : pyInt prtStr = .ok prt)
    (hne : cp ≠ sitePath fq) :
    upBefore (dockerUpCmd cp proj) (sitePath fq) (apply ex http r m fs).2.2 = true ∧
    (∀ c md, Ev.write (sitePath fq) c md ∈ (apply ex http r m fs).2.2 →
      c = r.apacheTpl ("apache/" ++ tpl)
        { fqdn := fq, backend_host := host, backend_port := prt,
          docroot := (m.flutter.getD {}).document_root.getD "/var/www/html",
          logPrefix := ap.logPrefix.getD nm }) := by
  have hrE : resolveEndpoint m = .ok (host, prt) := by
    simp [resolveEndpoint, getE, hdk, hpub, hhp, hsplit, hint, Bind.bind, Except.bind]
  have hctx2 := vhostCtx_withBackend m ap tpl fq nm host prt hap htpl hfq hnm
  unfold apply getE
  rw [hk]
  simp only []
  unfold dispatchKind
  rw [if_neg (by decide), if_neg (by decide), if_pos rfl]
  simp only [hap, hrE]
  refine ⟨?_, ?_⟩
  · rcases hD : deploy_code ex m fs with ⟨resD, fsD, evD⟩
    have hclean : ∀ e ∈ evD, cleanFor (dockerUpCmd cp proj) (sitePath fq) e = true := by
      have h0 := deploy_evs_clean ex m fs (dockerUpCmd cp proj) (sitePath fq) rfl
      rw [hD] at h0
      exact h0
    cases resD with
    | error e0 =>
      rw [seqO_err, seqO_err]
      exact upBefore_of_clean _ _ _ hclean
    | ok u0 =>
      cases u0
      rw [seqO_ok]
      rcases hDk : docker_apply ex r m fsD with ⟨resDk, fsDk, evDk⟩
      have hevDk : evDk = dockerEvsOf r m cp proj := by
        have h1 := docker_apply_evs ex r m fsD dk cp proj hdk hcp hproj
        rw [hDk] at h1
        exact h1
      subst hevDk
      cases resDk with
      | error e1 =>
        rw [seqO_err, seqO_err]
        rw [upBefore_append_clean _ _ _ _ hclean, ← List.append_nil (dockerEvsOf r m cp proj)]
        exact upBefore_dockerEvs r m cp proj _ [] hne
      | ok u1 =>
        cases u1
        rw [seqO_ok]
        simp only []
        rcases hA : apache_apply ex r (withBackendHostPort m host prt) fsDk
          with ⟨resA, fsA, evA⟩
        cases resA with
        | error e2 =>
          rw [seqO_err]
          rw [upBefore_append_clean _ _ _ _ hclean]
          exact upBefore_dockerEvs r m cp proj _ evA hne
        | ok u2 =>
          cases u2
          rw [seqO_ok]
          simp only []
          rw [List.append_assoc, upBefore_append_clean _ _ _ _ hclean,
            List.append_assoc]
          exact upBefore_dockerEvs r m cp proj _ _ hne
  · intro c md hmem
    have hall : ∀ e ∈ (seqO
        (seqO (deploy_code ex m fs) (fun fs1 =>
          seqO (docker_apply ex r m fs1) (fun fs2 =>
            apache_apply ex r (withBackendHostPort m host prt) fs2)))
        (fun fs3 => seqO (sslStep ex m fs3) (fun fs4 => healthStep http m fs4))).2.2,
        (∀ c2 md2, e = Ev.write (sitePath fq) c2 md2 →
          c2 = r.apacheTpl ("apache/" ++ tpl)
            { fqdn := fq, backend_host := host, backend_port := prt,
              docroot := (m.flutter.getD {}).document_root.getD "/var/www/html",
              logPrefix := ap.logPrefix.getD nm }) := by
      refine seqO_evs_pred _ _ _ ?_ (fun fs3 => ?_)
      · refine seqO_evs_pred _ _ _ ?_ (fun fs1 => ?_)
        · intro e he c2 md2 hqe
          rcases deploy_code_evs_shape ex m fs e he with ⟨d, rfl⟩ | ⟨cc, rfl, hc⟩
          · exact Ev.noConfusion hqe
          · exact Ev.noConfusion hqe
        · refine seqO_evs_pred _ _ _ ?_ (fun fs2 => ?_)
          · intro e he c2 md2 hqe
            rw [docker_apply_evs ex r m fs1 dk cp proj hdk hcp hproj] at he
            simp [dockerEvsOf] at he
            rcases he with he | he | he <;> subst he
            · exact Ev.noConfusion hqe
            · injection hqe with p1 p2 p3
              exact absurd p1 hne
            · exact Ev.noConfusion hqe
          · intro e he c2 md2 hqe
            subst hqe
            have h2 := apache_apply_write_pred ex r (withBackendHostPort m host prt)
              fs2 tpl _ hctx2 _ he _ _ _ rfl
            exact h2.2
      · refine seqO_evs_pred _ _ _ ?_ (fun fs4 => ?_) <;> intro e he c2 md2 hqe <;>
          subst hqe
        · have h3 := sslStep_no_write ex m fs3 _ he
          exact absurd h3 (by simp [isWrite])
        · have h3 := healthStep_no_write http m fs4 _ he
          exact absurd h3 (by simp [isWrite])
    exact hall _ hmem c md rfl

theorem C6_proxy_after_endpoint_witness :
    upBefore (dockerUpCmd "/srv/stack6/docker-compose.yml" "stack6")
        (sitePath "d6.org") (apply allOk httpNone rndX mC6 {}).2.2 = true ∧
    (∀ c md, Ev.write (sitePath "d6.org") c md ∈
        (apply allOk httpNone rndX mC6 {}).2.2 →
      c = rndX.apacheTpl "apache/docker.conf.j2"
        { fqdn := "d6.org", backend_host := "127.0.0.1", backend_port := 9000,
          docroot := (mC6.flutter.getD {}).document_root.getD "/var/www/html",
          logPrefix := (ApacheRec.logPrefix
            { template := some "docker.conf.j2" }).getD "stack6" }) :=
  C6_proxy_after_endpoint allOk httpNone rndX mC6 {}
    { template := some "docker.conf.j2" }
    { compose_path := some "/srv/stack6/docker-compose.yml",
      project := some "stack6",
      publish := some { http_target := some "127.0.0.1:9000" } }
    { http_target := some "127.0.0.1:9000" }
    "docker.conf.j2" "d6.org" "stack6" "/srv/stack6/docker-compose.yml"
    "stack6" "127.0.0.1:9000" "127.0.0.1" "9000" 9000
    rfl rfl rfl rfl rfl rfl rfl rfl rfl rfl rfl rfl (by decide)

/-! ## Claim C7 support: path algebra -/

theorem str_append_assoc (a b c : String) : (a ++ b) ++ c = a ++ (b ++ c) :=
  String.append_assoc a b c

theorem tmpPath_inj (u a : String) (h : tmpPath u = tmpPath a) : u = a := by
  unfold tmpPath at h
  have hd := congrArg String.data h
  rw [String.data_append, String.data_append] at hd
  have h2 := List.append_cancel_right hd
  cases u
  cases a
  simp_all

theorem sitePath_eq (fq : String) :
    sitePath fq = "/etc/apache2/sites-available/" ++ (fq ++ ".conf") := by
  unfold sitePath sitesAvailable
  rw [str_append_assoc, str_append_assoc]
  rfl

theorem systemd_ne_apache (x y : String) :
    ("/etc/systemd/system/" ++ x) ≠ ("/etc/apache2/sites-available/" ++ y) := by
  intro h
  have hd := congrArg (fun s => s.data[5]?) h
  simp only [String.data_append] at hd
  rw [List.getElem?_append, if_pos (by decide),
    List.getElem?_append, if_pos (by decide)] at hd
  exact absurd hd (by decide)

theorem unitPath_ne_sitePath (svc fq : String) :
    ("/etc/systemd/system/" ++ svc) ≠ sitePath fq := by
  rw [sitePath_eq]
  exact systemd_ne_apache svc (fq ++ ".conf")

theorem unitPath_ne_tmp_sitePath (svc fq : String) :
    ("/etc/systemd/system/" ++ svc) ≠ tmpPath (sitePath fq) := by
  rw [sitePath_eq]
  unfold tmpPath
  rw [str_append_assoc]
  exact systemd_ne_apache svc ((fq ++ ".conf") ++ ".tmp")

theorem sitePath_ne_tmp_unitPath (svc fq : String) :
    sitePath fq ≠ tmpPath ("/etc/systemd/system/" ++ svc) := by
  rw [sitePath_eq]
  unfold tmpPath
  rw [str_append_assoc]
  exact (systemd_ne_apache (svc ++ ".tmp") (fq ++ ".conf")).symm

/-! ## Claim C7 support: pointwise filesystem reading -/

theorem find?_filter_self {β : Type} (l : List (String × β)) (p : String) :
    (l.filter (fun e => e.1 != p)).find? (fun e => e.1 == p) = none := by
  induction l with
  | nil => rfl
  | cons a rest ih =>
    by_cases ha : a.1 = p
    · have h1 : (a.1 != p) = false := by simp [ha]
      rw [List.filter_cons, h1]
      exact ih
    · have h1 : (a.1 != p) = true := by simp [ha]
      have h2 : (a.1 == p) = false := by simp [ha]
      rw [List.filter_cons, h1, if_pos rfl, List.find?_cons, h2]
      exact ih

theorem lookupFile_removeFile_same (fs : FS) (p : String) :
    (fs.removeFile p).lookupFile p = none := by
  unfold FS.lookupFile FS.removeFile
  rw [find?_filter_self]

theorem lookup_write_file (p c : String) (md : Nat) (fs : FS) (q : String) :
    (write_file p c md fs).lookupFile q =
      if q = p then some (c, md)
      else if q = tmpPath p then none
      else fs.lookupFile q := by
  rw [write_file_eq]
  by_cases h1 : q = p
  · subst h1
    rw [if_pos rfl]
    exact lookupFile_setFile_same ..
  · rw [if_neg h1, lookupFile_setFile_ne _ _ _ _ _ h1]
    by_cases h2 : q = tmpPath p
    · subst h2
      rw [if_pos rfl]
      exact lookupFile_removeFile_same ..
    · rw [if_neg h2, lookupFile_removeFile_ne _ _ _ h2, lookupFile_addDir]

theorem hasDir_write_file (p c : String) (md : Nat) (fs : FS) (d : String) :
    (write_file p c md fs).hasDir d = (fs.hasDir d || (d == parentDir p)) := by
  rw [write_file_eq]
  rw [hasDir_setFile, hasDir_removeFile]
  exact hasDir_addDir fs d (parentDir p)

theorem hasDir_write_file_of (p c : String) (md : Nat) (fs : FS) (d : String)
    (h : fs.hasDir d = true) : (write_file p c md fs).hasDir d = true := by
  rw [hasDir_write_file, h]
  rfl

/-! ## Claim C7 support: idempotence of repeated writes -/

theorem write1_idem_lookup (a ca : String) (mda : Nat) (X : FS) (q : String) :
    (write_file a ca mda (write_file a ca mda X)).lookupFile q =
      (write_file a ca mda X).lookupFile q := by
  simp only [lookup_write_file]
  by_cases h1 : q = a
  · simp [h1]
  · by_cases h2 : q = tmpPath a <;> simp [h1, h2]

theorem write1_idem_hasDir (a ca : String) (mda : Nat) (X : FS) (d : String) :
    (write_file a ca mda (write_file a ca mda X)).hasDir d =
      (write_file a ca mda X).hasDir d := by
  simp only [hasDir_write_file]
  cases X.hasDir d <;> cases (d == parentDir a) <;> rfl

theorem write2_idem_lookup (a u ca cu : String) (mda mdu : Nat) (X : FS)
    (h1 : u ≠ a) (h2 : u ≠ tmpPath a) (h3 : a ≠ tmpPath u) (q : String) :
    (write_file a ca mda (write_file u cu mdu
        (write_file a ca mda (write_file u cu mdu X)))).lookupFile q =
      (write_file a ca mda (write_file u cu mdu X)).lookupFile q := by
  have h4 : tmpPath u ≠ tmpPath a := fun h => h1 (tmpPath_inj u a h)
  simp only [lookup_write_file]
  by_cases e1 : q = a
  · simp [e1]
  · by_cases e2 : q = tmpPath a
    · simp [e1, e2]
    · by_cases e3 : q = u
      · subst e3
        simp [e1, e2, h1, h2]
      · by_cases e4 : q = tmpPath u
        · subst e4
          simp [e1, e2, Ne.symm h3, h4]
        · simp [e1, e2, e3, e4]

theorem write2_idem_hasDir (a u ca cu : String) (mda mdu : Nat) (X : FS)
    (d : String) :
    (write_file a ca mda (write_file u cu mdu
        (write_file a ca mda (write_file u cu mdu X)))).hasDir d =
      (write_file a ca mda (write_file u cu mdu X)).hasDir d := by
  simp only [hasDir_write_file]
  cases X.hasDir d <;> cases (d == parentDir a) <;> cases (d == parentDir u) <;> rfl

/-! ## Claim C7 support: the git stage on a second run -/

theorem gitFS_hasDir_git (fs : FS) (wd : String) :
    (gitFS fs wd).hasDir (wd ++ "/.git") = true := by
  unfold gitFS
  by_cases h : (fs.addDir wd).hasDir (wd ++ "/.git") = true
  · rw [if_pos h]
    exact h
  · have h2 : (fs.addDir wd).hasDir (wd ++ "/.git") = false := by
      simpa using h
    rw [h2]
    simp
    exact hasDir_addDir_self ..

theorem gitFS_hasDir_wd (fs : FS) (wd : String) :
    (gitFS fs wd).hasDir wd = true := by
  unfold gitFS
  split
  · exact hasDir_addDir_self ..
  · exact hasDir_addDir_of _ _ _ (hasDir_addDir_self ..)

theorem gitFS_of_hasDir (fs : FS) (wd : String)
    (h1 : fs.hasDir wd = true) (h2 : fs.hasDir (wd ++ "/.git") = true) :
    gitFS fs wd = fs := by
  unfold gitFS
  rw [addDir_of_hasDir _ _ h1, h2]
  simp

theorem gitEvs_of_hasDir (fs : FS) (wd : String) (scm : ScmRec) (repo : String)
    (h1 : fs.hasDir wd = true) (h2 : fs.hasDir (wd ++ "/.git") = true) :
    gitEvs fs wd scm repo = [] := by
  unfold gitEvs
  rw [addDir_of_hasDir _ _ h1, h2]
  simp

/-! ## Claim C7 support: the observable-state fold -/

theorem stepSys_write (y : Sys) (p c : String) (md : Nat) :
    stepSys y (Ev.write p c md) = y := rfl

theorem stepSys_mkdir (y : Sys) (d : String) : stepSys y (Ev.mkdir d) = y := rfl

theorem stepSys_echo (y : Sys) (s : String) : stepSys y (Ev.echo s) = y := rfl

theorem stepSys_httpGet (y : Sys) (s : String) : stepSys y (Ev.httpGet s) = y := rfl

theorem stepSys_bash (y : Sys) (a b : String) :
    stepSys y (Ev.run ["bash", a, b]) = y := rfl

theorem stepSys_clone (y : Sys) (b rp w : String) :
    stepSys y (Ev.run (cloneCmd b rp w)) = y := rfl

theorem stepSys_daemon (y : Sys) :
    stepSys y (Ev.run ["sudo", "systemctl", "daemon-reload"]) = y := rfl

theorem stepSys_reload (y : Sys) :
    stepSys y (Ev.run ["sudo", "service", "apache2", "reload"]) = y := rfl

theorem stepSys_certbot (y : Sys) (fq : String) :
    stepSys y (Ev.run (certbotCmd fq)) = y := rfl

theorem stepSys_a2 (y : Sys) (s : String) :
    stepSys y (Ev.run ["sudo", "a2ensite", s]) =
      { y with enabledSites := insertIfAbsent s y.enabledSites } := rfl

theorem stepSys_enable (y : Sys) (s : String) :
    stepSys y (Ev.run ["sudo", "systemctl", "enable", "--now", s]) =
      { y with activeUnits := insertIfAbsent s y.activeUnits } := rfl

theorem stepSys_up (y : Sys) (cp proj : String) :
    stepSys y (Ev.run (dockerUpCmd cp proj)) =
      { y with dockerProjects := setAssoc proj cp y.dockerProjects } := rfl

theorem foldl_bashEvs (y : Sys) (wd : String) (l : List String) :
    (bashEvs wd l).foldl stepSys y = y := by
  induction l generalizing y with
  | nil => rfl
  | cons c rest ih =>
    show (bashEvs wd rest).foldl stepSys (stepSys y _) = y
    rw [stepSys_bash]
    exact ih y

theorem foldl_healthEvs (y : Sys) (http : Http) (m : Manifest) :
    (healthEvs http m).foldl stepSys y = y := by
  unfold healthEvs
  split
  · rfl
  · split
    · rfl
    · split <;> rfl

theorem foldl_gitEvs (y : Sys) (fs : FS) (wd : String) (scm : ScmRec)
    (repo : String) : (gitEvs fs wd scm repo).foldl stepSys y = y := by
  unfold gitEvs
  split
  · rfl
  · show stepSys y (Ev.run (cloneCmd (scm.branch.getD "main") repo wd)) = y
    exact stepSys_clone ..

theorem foldl_sslEvs (y : Sys) (m : Manifest) (fq : String) :
    (sslEvs m fq).foldl stepSys y = y := by
  unfold sslEvs
  split
  · show stepSys y (Ev.run (certbotCmd fq)) = y
    exact stepSys_certbot ..
  · rfl

theorem contains_insertIfAbsent_self (s : String) (l : List String) :
    (insertIfAbsent s l).contains s = true := by
  unfold insertIfAbsent
  split
  · assumption
  · show (l ++ [s]).elem s = true
    rw [elem_append_singleton]
    simp

theorem insertIfAbsent_of_contains (s : String) (l : List String)
    (h : l.contains s = true) : insertIfAbsent s l = l := by
  unfold insertIfAbsent
  rw [h]
  simp

theorem insertIfAbsent_absorb (s : String) (l : List String) :
    insertIfAbsent s (insertIfAbsent s l) = insertIfAbsent s l :=
  insertIfAbsent_of_contains _ _ (contains_insertIfAbsent_self s l)

theorem setAssoc_absorb (k v : String) (l : List (String × String)) :
    setAssoc k v (setAssoc k v l) = setAssoc k v l := by
  unfold setAssoc
  rw [List.filter_cons]
  simp [filter_idem]

/-! ## Claim C7 support: closed forms of apply, one per kind -/

theorem apply_native_closed (ex : Exec) (http : Http) (r : Rnd) (m : Manifest)
    (fs : FS) (kind : String)
    (hk : m.kind = some kind) (hkind : kind = "fastapi" ∨ kind = "streamlit")
    (wd repo : String) (scm : ScmRec)
    (hscm : m.scm = some scm) (hrepo : scm.repo = some repo)
    (hwd : wdOf m = .ok wd)
    (tplS svc : String) (ctxS : UnitCtx)
    (hunit : unitCtx m = .ok (tplS, svc, ctxS))
    (tplA : String) (ctxA : VhostCtx) (hctx : vhostCtx m = .ok (tplA, ctxA))
    (hex : ∀ c, ex c = true) :
    apply ex http r m fs =
      (.ok (),
        write_file (sitePath ctxA.fqdn) (r.apacheTpl ("apache/" ++ tplA) ctxA) 0o644
          (write_file ("/etc/systemd/system/" ++ svc)
            (r.systemdTpl ("systemd/" ++ tplS) ctxS) 0o644 (gitFS fs wd)),
        ([Ev.mkdir wd] ++ gitEvs fs wd scm repo ++ bashEvs wd (preinstallOf m)) ++
          systemdEvsOf r tplS svc ctxS ++ apacheEvsOf r tplA ctxA ++
          sslEvs m ctxA.fqdn ++ healthEvs http m) := by
  have hfq := vhostCtx_fields m tplA ctxA hctx
  unfold apply getE
  rw [hk]
  try simp only []
  unfold dispatchKind
  rw [if_pos hkind]
  rw [deploy_code_closed ex m fs wd repo scm hscm hrepo hwd hex, seqO_ok]
  try simp only []
  rw [systemd_apply_closed ex r m _ tplS svc ctxS hunit hex, seqO_ok]
  try simp only []
  rw [apache_apply_closed ex r m _ tplA ctxA hctx hex]
  try simp only []
  rw [seqO_ok]
  try simp only []
  cases hssl : m.ssl with
  | false =>
    rw [sslStep_false ex m _ hssl, seqO_ok, healthStep_closed]
    simp [sslEvs, hssl, List.append_assoc]
  | true =>
    rw [sslStep_true ex m _ ctxA.fqdn hssl hfq hex, seqO_ok, healthStep_closed]
    simp [sslEvs, hssl, List.append_assoc]

theorem apply_flutter_closed (ex : Exec) (http : Http) (r : Rnd) (m : Manifest)
    (fs : FS) (hk : m.kind = some "flutter")
    (tplA : String) (ctxA : VhostCtx) (hctx : vhostCtx m = .ok (tplA, ctxA))
    (fl : FlutterRec) (dr : String)
    (hfl : m.flutter = some fl) (hdr : fl.document_root = some dr)
    (hex : ∀ c, ex c = true) :
    apply ex http r m fs =
      (.ok (),
        (write_file (sitePath ctxA.fqdn)
          (r.apacheTpl ("apache/" ++ tplA) ctxA) 0o644 fs).addDir dr,
        apacheEvsOf r tplA ctxA ++ [Ev.mkdir dr] ++
          sslEvs m ctxA.fqdn ++ healthEvs http m) := by
  have hfq := vhostCtx_fields m tplA ctxA hctx
  unfold apply getE
  rw [hk]
  try simp only []
  unfold dispatchKind
  rw [if_neg (by decide), if_pos rfl]
  rw [apache_apply_closed ex r m fs tplA ctxA hctx hex, seqO_ok]
  simp only [getE, hfl, hdr, mkdirOp]
  rw [seqO_ok]
  try simp only []
  cases hssl : m.ssl with
  | false =>
    rw [sslStep_false ex m _ hssl, seqO_ok, healthStep_closed]
    simp [sslEvs, hssl, List.append_assoc]
  | true =>
    rw [sslStep_true ex m _ ctxA.fqdn hssl hfq hex, seqO_ok, healthStep_closed]
    simp [sslEvs, hssl, List.append_assoc]

theorem apply_docker_closed (ex : Exec) (http : Http) (r : Rnd) (m : Manifest)
    (fs : FS) (hk : m.kind = some "docker")
    (wd repo : String) (scm : ScmRec)
    (hscm : m.scm = some scm) (hrepo : scm.repo = some repo)
    (hwd : wdOf m = .ok wd)
    (dk : DockerRec) (cp proj : String)
    (hdk : m.docker = some dk) (hcp : dk.compose_path = some cp)
    (hproj : dk.project = some proj)
    (host : String) (prt : Int) (hrE : resolveEndpoint m = .ok (host, prt))
    (ap : ApacheRec) (hap : m.apache = some ap)
    (tplA : String) (ctxA : VhostCtx)
    (hctx2 : vhostCtx (withBackendHostPort m host prt) = .ok (tplA, ctxA))
    (hex : ∀ c, ex c = true) :
    apply ex http r m fs =
      (.ok (),
        write_file (sitePath ctxA.fqdn) (r.apacheTpl ("apache/" ++ tplA) ctxA) 0o644
          (write_file cp (r.composeTpl m) 0o644 (gitFS fs wd)),
        ([Ev.mkdir wd] ++ gitEvs fs wd scm repo ++ bashEvs wd (preinstallOf m)) ++
          dockerEvsOf r m cp proj ++ apacheEvsOf r tplA ctxA ++
          sslEvs m ctxA.fqdn ++ healthEvs http m) := by
  have hfq : m.fqdn = some ctxA.fqdn :=
    vhostCtx_fields (withBackendHostPort m host prt) tplA ctxA hctx2
  unfold apply getE
  rw [hk]
  try simp only []
  unfold dispatchKind
  rw [if_neg (by decide), if_neg (by decide), if_pos rfl]
  rw [deploy_code_closed ex m fs wd repo scm hscm hrepo hwd hex, seqO_ok]
  try simp only []
  rw [docker_apply_closed ex r m _ dk cp proj hdk hcp hproj hex, seqO_ok]
  simp only [hap, hrE]
  rw [apache_apply_closed ex r (withBackendHostPort m host prt) _ tplA ctxA hctx2 hex]
  try simp only []
  rw [seqO_ok]
  try simp only []
  cases hssl : m.ssl with
  | false =>
    rw [sslStep_false ex m _ hssl, seqO_ok, healthStep_closed]
    simp [sslEvs, hssl, List.append_assoc]
  | true =>
    rw [sslStep_true ex m _ ctxA.fqdn hssl hfq hex, seqO_ok, healthStep_closed]
    simp [sslEvs, hssl, List.append_assoc]

theorem apply_docker_noproxy_closed (ex : Exec) (http : Http) (r : Rnd)
    (m : Manifest) (fs : FS) (hk : m.kind = some "docker")
    (hap : m.apache = none)
    (wd repo : String) (scm : ScmRec)
    (hscm : m.scm = some scm) (hrepo : scm.repo = some repo)
    (hwd : wdOf m = .ok wd)
    (dk : DockerRec) (cp proj : String)
    (hdk : m.docker = some dk) (hcp : dk.compose_path = some cp)
    (hproj : dk.project = some proj)
    (fq : String) (hfq : m.ssl = true → m.fqdn = some fq)
    (hex : ∀ c, ex c = true) :
    apply ex http r m fs =
      (.ok (),
        write_file cp (r.composeTpl m) 0o644 (gitFS fs wd),
        ([Ev.mkdir wd] ++ gitEvs fs wd scm repo ++ bashEvs wd (preinstallOf m)) ++
          dockerEvsOf r m cp proj ++ sslEvs m fq ++ healthEvs http m) := by
  unfold apply getE
  rw [hk]
  try simp only []
  unfold dispatchKind
  rw [if_neg (by decide), if_neg (by decide), if_pos rfl]
  rw [deploy_code_closed ex m fs wd repo scm hscm hrepo hwd hex, seqO_ok]
  try simp only []
  rw [docker_apply_closed ex r m _ dk cp proj hdk hcp hproj hex, seqO_ok]
  simp only [hap, skip]
  rw [seqO_ok]
  try simp only []
  cases hssl : m.ssl with
  | false =>
    rw [sslStep_false ex m _ hssl, seqO_ok, healthStep_closed]
    simp [sslEvs, hssl, List.append_assoc]
  | true =>
    rw [sslStep_true ex m _ fq hssl (hfq hssl) hex, seqO_ok, healthStep_closed]
    simp [sslEvs, hssl, List.append_assoc]

/-! ## Claim C7 support: extracting the lookups from validity -/

theorem vhostCtx_ok (m : Manifest) (ap : ApacheRec) (tpl fq nm : String)
    (hap : m.apache = some ap) (htpl : ap.template = some tpl)
    (hfq : m.fqdn = some fq) (hnm : m.name = some nm) :
    vhostCtx m = .ok (tpl,
      { fqdn := fq,
        backend_host := (m.backend.getD {}).host.getD "127.0.0.1",
        backend_port := (m.backend.getD {}).port.getD 8000,
        docroot := (m.flutter.getD {}).document_root.getD "/var/www/html",
        logPrefix := ap.logPrefix.getD nm }) := by
  simp [vhostCtx, getE, hap, htpl, hfq, hnm, Bind.bind, Except.bind]

theorem unitCtx_ok (m : Manifest) (svc : ServiceRec) (be : Backend)
    (tpl nm usr grp wdr : String)
    (hsvc : m.service = some svc) (htpl : svc.template = some tpl)
    (hnm : m.name = some nm) (husr : svc.user = some usr)
    (hgrp : svc.group = some grp)
    (hbe : m.backend = some be) (hwdr : be.working_dir = some wdr) :
    unitCtx m = .ok (tpl, nm ++ ".service",
      { user := usr, group := grp, workdir := wdr,
        uvicorn_module := ((m.backend.getD {}).entrypoint.getD {}).module.getD "",
        uvicorn_args := ((m.backend.getD {}).entrypoint.getD {}).extra_args.getD "",
        venv := ((m.backend.getD {}).entrypoint.getD {}).venv.getD "",
        cmd := ((m.backend.getD {}).entrypoint.getD {}).cmd.getD "",
        port := (m.backend.getD {}).port.getD 8000 }) := by
  simp [unitCtx, getE, hsvc, htpl, hnm, husr, hgrp, hbe, hwdr,
    Bind.bind, Except.bind]

theorem validApacheBits_spec (m : Manifest) (h : validApacheBits m = true) :
    ∃ ap tpl fq nm, m.apache = some ap ∧ ap.template = some tpl ∧
      m.fqdn = some fq ∧ m.name = some nm := by
  unfold validApacheBits at h
  rcases hap : m.apache with _ | ap <;> rw [hap] at h
  · simp at h
  · rcases hfq : m.fqdn with _ | fq <;> rw [hfq] at h
    · simp at h
    · rcases hnm : m.name with _ | nm <;> rw [hnm] at h
      · simp at h
      · have h2 : ap.template.isSome = true := by simpa using h
        rcases htpl : ap.template with _ | tpl <;> rw [htpl] at h2
        · simp at h2
        · exact ⟨ap, tpl, fq, nm, rfl, htpl, rfl, rfl⟩

theorem validDeployBits_spec (m : Manifest) (h : validDeployBits m = true) :
    ∃ scm repo wd, m.scm = some scm ∧ scm.repo = some repo ∧
      wdOf m = .ok wd := by
  unfold validDeployBits at h
  rw [Bool.and_eq_true] at h
  obtain ⟨h1, h2⟩ := h
  rcases hscm : m.scm with _ | scm <;> rw [hscm] at h1
  · simp at h1
  · have h1b : scm.repo.isSome = true := by simpa using h1
    rcases hrepo : scm.repo with _ | repo <;> rw [hrepo] at h1b
    · simp at h1b
    · rcases hbe : m.backend with _ | be <;> rw [hbe] at h2
      · have h2b : m.name.isSome = true := by simpa using h2
        rcases hnm : m.name with _ | nm <;> rw [hnm] at h2b
        · simp at h2b
        · exact ⟨scm, repo, "/srv/" ++ nm, rfl, hrepo, by
            simp [wdOf, hbe, hnm]⟩
      · have h2b : be.working_dir.isSome = true := by simpa using h2
        rcases hwdr : be.working_dir with _ | wdr <;> rw [hwdr] at h2b
        · simp at h2b
        · exact ⟨scm, repo, wdr, rfl, hrepo, by
            simp [wdOf, getE, hbe, hwdr]⟩

theorem validServiceBits_spec (m : Manifest) (h : validServiceBits m = true) :
    ∃ svc be tpl nm usr grp wdr,
      m.service = some svc ∧ svc.template = some tpl ∧ m.name = some nm ∧
      svc.user = some usr ∧ svc.group = some grp ∧
      m.backend = some be ∧ be.working_dir = some wdr := by
  unfold validServiceBits at h
  rw [Bool.and_eq_true, Bool.and_eq_true] at h
  obtain ⟨⟨h1, h2⟩, h3⟩ := h
  rcases hsvc : m.service with _ | svc <;> rw [hsvc] at h1
  · simp at h1
  · have h1b : (svc.template.isSome && svc.user.isSome && svc.group.isSome) = true := by
      simpa using h1
    rw [Bool.and_eq_true, Bool.and_eq_true] at h1b
    obtain ⟨⟨ht, hu⟩, hg⟩ := h1b
    rcases htpl : svc.template with _ | tpl <;> rw [htpl] at ht
    · simp at ht
    · rcases husr : svc.user with _ | usr <;> rw [husr] at hu
      · simp at hu
      · rcases hgrp : svc.group with _ | grp <;> rw [hgrp] at hg
        · simp at hg
        · rcases hbe : m.backend with _ | be <;> rw [hbe] at h2
          · simp at h2
          · have h2b : be.working_dir.isSome = true := by simpa using h2
            rcases hwdr : be.working_dir with _ | wdr <;> rw [hwdr] at h2b
            · simp at h2b
            · rcases hnm : m.name with _ | nm <;> rw [hnm] at h3
              · simp at h3
              · exact ⟨svc, be, tpl, nm, usr, grp, wdr,
                  rfl, htpl, rfl, husr, hgrp, rfl, hwdr⟩

theorem dockerBits_spec (m : Manifest) (h : dockerBits m = true) :
    ∃ dk cp proj, m.docker = some dk ∧ dk.compose_path = some cp ∧
      dk.project = some proj := by
  unfold dockerBits at h
  rcases hdk : m.docker with _ | dk <;> rw [hdk] at h
  · simp at h
  · have hb : (dk.compose_path.isSome && dk.project.isSome) = true := by simpa using h
    rw [Bool.and_eq_true] at hb
    obtain ⟨h1, h2⟩ := hb
    rcases hcp : dk.compose_path with _ | cp <;> rw [hcp] at h1
    · simp at h1
    · rcases hproj : dk.project with _ | proj <;> rw [hproj] at h2
      · simp at h2
      · exact ⟨dk, cp, proj, rfl, hcp, hproj⟩

theorem endpointOk_spec (m : Manifest) (h : endpointOk m = true) :
    ∃ host prt, resolveEndpoint m = .ok (host, prt) := by
  unfold endpointOk at h
  rcases hre : resolveEndpoint m with e | hp <;> rw [hre] at h
  · simp at h
  · exact ⟨hp.1, hp.2, rfl⟩

/-! ## Claim C7 support: idempotence per kind -/

theorem idem_native (ex : Exec) (http : Http) (r : Rnd) (m : Manifest)
    (fs : FS) (kind : String)
    (hk : m.kind = some kind) (hkind : kind = "fastapi" ∨ kind = "streamlit")
    (wd repo : String) (scm : ScmRec)
    (hscm : m.scm = some scm) (hrepo : scm.repo = some repo)
    (hwd : wdOf m = .ok wd)
    (tplS svc : String) (ctxS : UnitCtx)
    (hunit : unitCtx m = .ok (tplS, svc, ctxS))
    (tplA : String) (ctxA : VhostCtx) (hctx : vhostCtx m = .ok (tplA, ctxA))
    (hex : ∀ c, ex c = true) :
    (apply ex http r m fs).1 = .ok () ∧
    FS.equiv (apply ex http r m ((apply ex http r m fs).2.1)).2.1
      (apply ex http r m fs).2.1 ∧
    sysOf ((apply ex http r m fs).2.2 ++
        (apply ex http r m ((apply ex http r m fs).2.1)).2.2) =
      sysOf (apply ex http r m fs).2.2 := by
  have h1 := apply_native_closed ex http r m fs kind hk hkind wd repo scm
    hscm hrepo hwd tplS svc ctxS hunit tplA ctxA hctx hex
  rw [h1]
  try simp only []
  set X := gitFS fs wd with hX
  set F1 := write_file (sitePath ctxA.fqdn)
    (r.apacheTpl ("apache/" ++ tplA) ctxA) 0o644
    (write_file ("/etc/systemd/system/" ++ svc)
      (r.systemdTpl ("systemd/" ++ tplS) ctxS) 0o644 X) with hF1
  have hwd1 : F1.hasDir wd = true := by
    rw [hF1, hX]
    exact hasDir_write_file_of _ _ _ _ _
      (hasDir_write_file_of _ _ _ _ _ (gitFS_hasDir_wd fs wd))
  have hgd1 : F1.hasDir (wd ++ "/.git") = true := by
    rw [hF1, hX]
    exact hasDir_write_file_of _ _ _ _ _
      (hasDir_write_file_of _ _ _ _ _ (gitFS_hasDir_git fs wd))
  have hgit1 : gitFS F1 wd = F1 := gitFS_of_hasDir F1 wd hwd1 hgd1
  have h2 := apply_native_closed ex http r m F1 kind hk hkind wd repo scm
    hscm hrepo hwd tplS svc ctxS hunit tplA ctxA hctx hex
  rw [hgit1] at h2
  rw [h2]
  try simp only []
  refine ⟨trivial, ⟨?_, ?_⟩, ?_⟩
  · intro q
    rw [hF1]
    exact write2_idem_lookup (sitePath ctxA.fqdn)
      ("/etc/systemd/system/" ++ svc) _ _ _ _ X
      (unitPath_ne_sitePath svc ctxA.fqdn)
      (unitPath_ne_tmp_sitePath svc ctxA.fqdn)
      (sitePath_ne_tmp_unitPath svc ctxA.fqdn) q
  · intro d
    rw [hF1]
    exact write2_idem_hasDir (sitePath ctxA.fqdn)
      ("/etc/systemd/system/" ++ svc) _ _ _ _ X d
  · simp only [sysOf, List.foldl_append, List.foldl_cons, List.foldl_nil,
      systemdEvsOf, apacheEvsOf, foldl_bashEvs, foldl_healthEvs, foldl_gitEvs,
      foldl_sslEvs, stepSys_mkdir, stepSys_write, stepSys_daemon,
      stepSys_reload, stepSys_enable, stepSys_a2, insertIfAbsent_absorb]

theorem idem_flutter (ex : Exec) (http : Http) (r : Rnd) (m : Manifest)
    (fs : FS) (hk : m.kind = some "flutter")
    (tplA : String) (ctxA : VhostCtx) (hctx : vhostCtx m = .ok (tplA, ctxA))
    (fl : FlutterRec) (dr : String)
    (hfl : m.flutter = some fl) (hdr : fl.document_root = some dr)
    (hex : ∀ c, ex c = true) :
    (apply ex http r m fs).1 = .ok () ∧
    FS.equiv (apply ex http r m ((apply ex http r m fs).2.1)).2.1
      (apply ex http r m fs).2.1 ∧
    sysOf ((apply ex http r m fs).2.2 ++
        (apply ex http r m ((apply ex http r m fs).2.1)).2.2) =
      sysOf (apply ex http r m fs).2.2 := by
  have h1 := apply_flutter_closed ex http r m fs hk tplA ctxA hctx fl dr hfl hdr hex
  rw [h1]
  try simp only []
  set F1 := (write_file (sitePath ctxA.fqdn)
    (r.apacheTpl ("apache/" ++ tplA) ctxA) 0o644 fs).addDir dr with hF1
  have h2 := apply_flutter_closed ex http r m F1 hk tplA ctxA hctx fl dr hfl hdr hex
  rw [h2]
  try simp only []
  refine ⟨trivial, ⟨?_, ?_⟩, ?_⟩
  · intro q
    rw [hF1]
    simp only [lookupFile_addDir, lookup_write_file]
    by_cases e1 : q = sitePath ctxA.fqdn
    · simp [e1]
    · by_cases e2 : q = tmpPath (sitePath ctxA.fqdn) <;> simp [e1, e2]
  · intro d
    rw [hF1]
    simp only [hasDir_addDir, hasDir_write_file]
    cases fs.hasDir d <;>
      cases (d == parentDir (sitePath ctxA.fqdn)) <;>
      cases (d == dr) <;> rfl
  · simp only [sysOf, List.foldl_append, List.foldl_cons, List.foldl_nil,
      apacheEvsOf, foldl_healthEvs, foldl_sslEvs, stepSys_mkdir, stepSys_write,
      stepSys_reload, stepSys_a2, insertIfAbsent_absorb]

theorem idem_docker_proxy (ex : Exec) (http : Http) (r : Rnd) (m : Manifest)
    (fs : FS) (hk : m.kind = some "docker")
    (wd repo : String) (scm : ScmRec)
    (hscm : m.scm = some scm) (hrepo : scm.repo = some repo)
    (hwd : wdOf m = .ok wd)
    (dk : DockerRec) (cp proj : String)
    (hdk : m.docker = some dk) (hcp : dk.compose_path = some cp)
    (hproj : dk.project = some proj)
    (host : String) (prt : Int) (hrE : resolveEndpoint m = .ok (host, prt))
    (ap : ApacheRec) (hap : m.apache = some ap)
    (tplA : String) (ctxA : VhostCtx)
    (hctx2 : vhostCtx (withBackendHostPort m host prt) = .ok (tplA, ctxA))
    (i1 : cp ≠ sitePath ctxA.fqdn) (i2 : cp ≠ tmpPath (sitePath ctxA.fqdn))
    (i3 : sitePath ctxA.fqdn ≠ tmpPath cp)
    (hex : ∀ c, ex c = true) :
    (apply ex http r m fs).1 = .ok () ∧
    FS.equiv (apply ex http r m ((apply ex http r m fs).2.1)).2.1
      (apply ex http r m fs).2.1 ∧
    sysOf ((apply ex http r m fs).2.2 ++
        (apply ex http r m ((apply ex http r m fs).2.1)).2.2) =
      sysOf (apply ex http r m fs).2.2 := by
  have h1 := apply_docker_closed ex http r m fs hk wd repo scm hscm hrepo hwd
    dk cp proj hdk hcp hproj host prt hrE ap hap tplA ctxA hctx2 hex
  rw [h1]
  try simp only []
  set X := gitFS fs wd with hX
  set F1 := write_file (sitePath ctxA.fqdn)
    (r.apacheTpl ("apache/" ++ tplA) ctxA) 0o644
    (write_file cp (r.composeTpl m) 0o644 X) with hF1
  have hwd1 : F1.hasDir wd = true := by
    rw [hF1, hX]
    exact hasDir_write_file_of _ _ _ _ _
      (hasDir_write_file_of _ _ _ _ _ (gitFS_hasDir_wd fs wd))
  have hgd1 : F1.hasDir (wd ++ "/.git") = true := by
    rw [hF1, hX]
    exact hasDir_write_file_of _ _ _ _ _
      (hasDir_write_file_of _ _ _ _ _ (gitFS_hasDir_git fs wd))
  have hgit1 : gitFS F1 wd = F1 := gitFS_of_hasDir F1 wd hwd1 hgd1
  have h2 := apply_docker_closed ex http r m F1 hk wd repo scm hscm hrepo hwd
    dk cp proj hdk hcp hproj host prt hrE ap hap tplA ctxA hctx2 hex
  rw [hgit1] at h2
  rw [h2]
  try simp only []
  refine ⟨trivial, ⟨?_, ?_⟩, ?_⟩
  · intro q
    rw [hF1]
    exact write2_idem_lookup (sitePath ctxA.fqdn) cp _ _ _ _ X i1 i2 i3 q
  · intro d
    rw [hF1]
    exact write2_idem_hasDir (sitePath ctxA.fqdn) cp _ _ _ _ X d
  · simp only [sysOf, List.foldl_append, List.foldl_cons, List.foldl_nil,
      dockerEvsOf, apacheEvsOf, foldl_bashEvs, foldl_healthEvs, foldl_gitEvs,
      foldl_sslEvs, stepSys_mkdir, stepSys_write, stepSys_reload, stepSys_a2,
      stepSys_up, insertIfAbsent_absorb, setAssoc_absorb]

theorem idem_docker_noproxy (ex : Exec) (http : Http) (r : Rnd) (m : Manifest)
    (fs : FS) (hk : m.kind = some "docker") (hap : m.apache = none)
    (wd repo : String) (scm : ScmRec)
    (hscm : m.scm = some scm) (hrepo : scm.repo = some repo)
    (hwd : wdOf m = .ok wd)
    (dk : DockerRec) (cp proj : String)
    (hdk : m.docker = some dk) (hcp : dk.compose_path = some cp)
    (hproj : dk.project = some proj)
    (fq : String) (hfq : m.ssl = true → m.fqdn = some fq)
    (hex : ∀ c, ex c = true) :
    (apply ex http r m fs).1 = .ok () ∧
    FS.equiv (apply ex http r m ((apply ex http r m fs).2.1)).2.1
      (apply ex http r m fs).2.1 ∧
    sysOf ((apply ex http r m fs).2.2 ++
        (apply ex http r m ((apply ex http r m fs).2.1)).2.2) =
      sysOf (apply ex http r m fs).2.2 := by
  have h1 := apply_docker_noproxy_closed ex http r m fs hk hap wd repo scm
    hscm hrepo hwd dk cp proj hdk hcp hproj fq hfq hex
  rw [h1]
  try simp only []
  set X := gitFS fs wd with hX
  set F1 := write_file cp (r.composeTpl m) 0o644 X with hF1
  have hwd1 : F1.hasDir wd = true := by
    rw [hF1, hX]
    exact hasDir_write_file_of _ _ _ _ _ (gitFS_hasDir_wd fs wd)
  have hgd1 : F1.hasDir (wd ++ "/.git") = true := by
    rw [hF1, hX]
    exact hasDir_write_file_of _ _ _ _ _ (gitFS_hasDir_git fs wd)
  have hgit1 : gitFS F1 wd = F1 := gitFS_of_hasDir F1 wd hwd1 hgd1
  have h2 := apply_docker_noproxy_closed ex http r m F1 hk hap wd repo scm
    hscm hrepo hwd dk cp proj hdk hcp hproj fq hfq hex
  rw [hgit1] at h2
  rw [h2]
  try simp only []
  refine ⟨trivial, ⟨?_, ?_⟩, ?_⟩
  · intro q
    rw [hF1]
    exact write1_idem_lookup cp _ _ X q
  · intro d
    rw [hF1]
    exact write1_idem_hasDir cp _ _ X d
  · simp only [sysOf, List.foldl_append, List.foldl_cons, List.foldl_nil,
      dockerEvsOf, foldl_bashEvs, foldl_healthEvs, foldl_gitEvs,
      foldl_sslEvs, stepSys_mkdir, stepSys_write, stepSys_up, setAssoc_absorb]

/-- C7: for every valid manifest (all the dictionary lookups apply performs
succeed, the published endpoint parses, and the container descriptor path
does not collide with the proxy site artifact or its temporary file), with
every external command succeeding, a first apply succeeds, and running apply
a second time leaves the filesystem observationally identical — every path
holds byte-identical content and the directories are the same, so all
generated artifacts (proxy site file, unit file, container descriptor) are
byte-identical — and folds the combined event trace to the same
process-manager and container-runtime state as a single apply. -/
theorem C7_apply_idempotent (ex : Exec) (http : Http) (r : Rnd) (m : Manifest)
    (fs : FS) (hex : ∀ c, ex c = true) (hv : validManifest m = true)
    (hsep : ∀ dk cp fq, m.docker = some dk → dk.compose_path = some cp →
      m.fqdn = some fq →
      cp ≠ sitePath fq ∧ cp ≠ tmpPath (sitePath fq) ∧
        sitePath fq ≠ tmpPath cp) :
    (apply ex http r m fs).1 = .ok () ∧
    FS.equiv (apply ex http r m ((apply ex http r m fs).2.1)).2.1
      (apply ex http r m fs).2.1 ∧
    sysOf ((apply ex http r m fs).2.2 ++
        (apply ex http r m ((apply ex http r m fs).2.1)).2.2) =
      sysOf (apply ex http r m fs).2.2 := by
  unfold validManifest at hv
  rw [Bool.and_eq_true] at hv
  obtain ⟨hssl0, hv⟩ := hv
  rcases hk : m.kind with _ | kind
  · rw [hk] at hv
    simp at hv
  · rw [hk] at hv
    by_cases hkf : kind = "fastapi"
    · subst hkf
      have hv2 : (validDeployBits m && validServiceBits m && validApacheBits m) = true := by
        simpa using hv
      rw [Bool.and_eq_true, Bool.and_eq_true] at hv2
      obtain ⟨⟨hd, hs⟩, ha⟩ := hv2
      obtain ⟨scm, repo, wd, hscm, hrepo, hwd⟩ := validDeployBits_spec m hd
      obtain ⟨svc, be, tplS, nm, usr, grp, wdr, hsvc, htplS, hnm, husr, hgrp,
        hbe, hwdr⟩ := validServiceBits_spec m hs
      obtain ⟨ap, tplA, fq, nm2, hap, htplA, hfq, hnm2⟩ := validApacheBits_spec m ha
      have hunit := unitCtx_ok m svc be tplS nm usr grp wdr
        hsvc htplS hnm husr hgrp hbe hwdr
      have hctx := vhostCtx_ok m ap tplA fq nm2 hap htplA hfq hnm2
      exact idem_native ex http r m fs "fastapi" hk (Or.inl rfl) wd repo scm
        hscm hrepo hwd tplS (nm ++ ".service") _ hunit tplA _ hctx hex
    · by_cases hks : kind = "streamlit"
      · subst hks
        have hv2 : (validDeployBits m && validServiceBits m && validApacheBits m) = true := by
          simpa using hv
        rw [Bool.and_eq_true, Bool.and_eq_true] at hv2
        obtain ⟨⟨hd, hs⟩, ha⟩ := hv2
        obtain ⟨scm, repo, wd, hscm, hrepo, hwd⟩ := validDeployBits_spec m hd
        obtain ⟨svc, be, tplS, nm, usr, grp, wdr, hsvc, htplS, hnm, husr, hgrp,
          hbe, hwdr⟩ := validServiceBits_spec m hs
        obtain ⟨ap, tplA, fq, nm2, hap, htplA, hfq, hnm2⟩ := validApacheBits_spec m ha
        have hunit := unitCtx_ok m svc be tplS nm usr grp wdr
          hsvc htplS hnm husr hgrp hbe hwdr
        have hctx := vhostCtx_ok m ap tplA fq nm2 hap htplA hfq hnm2
        exact idem_native ex http r m fs "streamlit" hk (Or.inr rfl) wd repo scm
          hscm hrepo hwd tplS (nm ++ ".service") _ hunit tplA _ hctx hex
      · by_cases hkfl : kind = "flutter"
        · subst hkfl
          have hv2 : (validApacheBits m &&
              (match m.flutter with
               | some fl => fl.document_root.isSome
               | none => false)) = true := by
            simpa using hv
          rw [Bool.and_eq_true] at hv2
          obtain ⟨ha, hflb⟩ := hv2
          obtain ⟨ap, tplA, fq, nm2, hap, htplA, hfq, hnm2⟩ := validApacheBits_spec m ha
          have hctx := vhostCtx_ok m ap tplA fq nm2 hap htplA hfq hnm2
          rcases hfl : m.flutter with _ | fl <;> rw [hfl] at hflb
          · simp at hflb
          · have hflb2 : fl.document_root.isSome = true := by simpa using hflb
            rcases hdr : fl.document_root with _ | dr <;> rw [hdr] at hflb2
            · simp at hflb2
            · exact idem_flutter ex http r m fs hk tplA _ hctx fl dr hfl hdr hex
        · by_cases hkd : kind = "docker"
          · subst hkd
            have hv2 : (validDeployBits m && dockerBits m &&
                (match m.apache with
                 | none => true
                 | some _ => validApacheBits m && endpointOk m)) = true := by
              simpa using hv
            rw [Bool.and_eq_true, Bool.and_eq_true] at hv2
            obtain ⟨⟨hd, hdo⟩, hrest⟩ := hv2
            obtain ⟨scm, repo, wd, hscm, hrepo, hwd⟩ := validDeployBits_spec m hd
            obtain ⟨dk, cp, proj, hdk, hcp, hproj⟩ := dockerBits_spec m hdo
            rcases hap : m.apache with _ | ap <;> rw [hap] at hrest
            · have hfqd : m.ssl = true → m.fqdn = some (m.fqdn.getD "") := by
                intro hs
                rw [hs] at hssl0
                simp at hssl0
                rcases hx : m.fqdn with _ | v
                · rw [hx] at hssl0
                  simp at hssl0
                · simp [hx]
              exact idem_docker_noproxy ex http r m fs hk hap wd repo scm
                hscm hrepo hwd dk cp proj hdk hcp hproj _ hfqd hex
            · have hrest2 : (validApacheBits m && endpointOk m) = true := by
                simpa using hrest
              rw [Bool.and_eq_true] at hrest2
              obtain ⟨ha, he⟩ := hrest2
              obtain ⟨ap2, tplA, fq, nm2, hap2, htplA, hfq, hnm2⟩ :=
                validApacheBits_spec m ha
              obtain ⟨host, prt, hrE⟩ := endpointOk_spec m he
              have hctx2 := vhostCtx_withBackend m ap2 tplA fq nm2 host prt
                hap2 htplA hfq hnm2
              obtain ⟨i1, i2, i3⟩ := hsep dk cp fq hdk hcp hfq
              exact idem_docker_proxy ex http r m fs hk wd repo scm
                hscm hrepo hwd dk cp proj hdk hcp hproj host prt hrE ap2 hap2
                tplA _ hctx2 i1 i2 i3 hex
          · exfalso
            split at hv <;> simp_all

theorem C7_apply_idempotent_witness :
    (∀ c, allOk c = true) ∧ validManifest mC6 = true ∧
    ((apply allOk httpNone rndX mC6 {}).1 = .ok () ∧
     FS.equiv (apply allOk httpNone rndX mC6
         ((apply allOk httpNone rndX mC6 {}).2.1)).2.1
       (apply allOk httpNone rndX mC6 {}).2.1 ∧
     sysOf ((apply allOk httpNone rndX mC6 {}).2.2 ++
         (apply allOk httpNone rndX mC6
           ((apply allOk httpNone rndX mC6 {}).2.1)).2.2) =
       sysOf (apply allOk httpNone rndX mC6 {}).2.2) :=
  ⟨fun _ => rfl, by decide,
    C7_apply_idempotent allOk httpNone rndX mC6 {} (fun _ => rfl) (by decide)
      (fun dk cp fq hdk hcp hfq => by
        have h1 : some
            ({ compose_path := some "/srv/stack6/docker-compose.yml",
               project := some "stack6",
               publish := some { http_target := some "127.0.0.1:9000" } } :
              DockerRec) = some dk := hdk
        cases h1
        have h2 : some "/srv/stack6/docker-compose.yml" = some cp := hcp
        cases h2
        have h3 : some "d6.org" = some fq := hfq
        cases h3
        exact ⟨by decide, by decide, by decide⟩)⟩

theorem C10_proxy_defaults_witness :
    vhostCtx { name := some "s", kind := some "flutter", fqdn := some "s.org",
               apache := some { template := some "t.j2" } } =
      .ok ("t.j2",
        { fqdn := "s.org", backend_host := "127.0.0.1", backend_port := 8000,
          docroot := "/var/www/html",
          logPrefix := (ApacheRec.logPrefix { template := some "t.j2" }).getD "s" }) ∧
    (apache_apply allOk rndX
      { name := some "s", kind := some "flutter", fqdn := some "s.org",
        apache := some { template := some "t.j2" } } {}).1 = .ok () :=
  C10_proxy_defaults allOk rndX _ {} { template := some "t.j2" } "t.j2" "s.org" "s"
    rfl rfl rfl rfl rfl rfl (fun _ => rfl)

end Publisher
